import Mathlib

set_option maxRecDepth 100000

/- Formal model of the MAITRIX bot repository (config.py, utils.py, bot.py).
   Python dicts are modelled as association lists, token balances as naturals,
   IEEE-754 binary64 values as exact dyadic rationals produced by an explicit
   round-to-nearest-even function, and the transaction-confirmation loop as
   a fuel-indexed recursion over an abstract stream of receipt polls. -/

/-! ## IEEE-754 binary64 model (normal range)

Python floats are binary64.  Every float value appearing in this program
(0.1, 0.2, 0.3, 0.4, 0.5 and token balances up to about 10^20) is a normal
nonnegative binary64 number, so we model a float as the exact dyadic value
it denotes, as a mantissa together with a power-of-two exponent, and
rounding as round-to-nearest, ties-to-even at 53 bits of precision. -/

def log2fuel : Nat → Nat → Nat
  | 0, _ => 0
  | fuel + 1, n => if n < 2 then 0 else log2fuel fuel (n / 2) + 1

/-- Floor of the base-2 logarithm of a positive natural. -/
def natLog2 (n : Nat) : Nat := log2fuel n n

/-- A nonnegative dyadic rational m * 2^k; the representation of all
binary64 values used by the program. -/
structure Dy where
  m : Nat
  k : Int
deriving DecidableEq

/-- Decide 2^e ≤ a / b for positive naturals a, b. -/
def ratLePow2 (e : Int) (a b : Nat) : Bool :=
  if 0 ≤ e then b * 2 ^ e.toNat ≤ a else b ≤ a * 2 ^ (-e).toNat

/-- Round the positive dyadic p * 2^j to 53 bits of precision
(round to nearest, ties to even). -/
def roundMant (p : Nat) (j : Int) : Dy :=
  let e : Int := (natLog2 p : Int) + j
  let k := e - 52
  let sh := k - j
  if 0 ≤ sh then
    let s := 2 ^ sh.toNat
    let f := p / s
    let r2 := 2 * (p % s)
    ⟨if r2 < s then f else if s < r2 then f + 1 else if f % 2 = 0 then f else f + 1, k⟩
  else ⟨p * 2 ^ (-sh).toNat, k⟩

/-- Round the positive rational a / b to the nearest binary64 value. -/
def roundRat (a b : Nat) : Dy :=
  let e0 : Int := (natLog2 a : Int) - (natLog2 b : Int)
  let e := if ratLePow2 (e0 + 1) a b then e0 + 1 else if ratLePow2 e0 a b then e0 else e0 - 1
  let k := e - 52
  let nd := if 0 ≤ k then (a, b * 2 ^ k.toNat) else (a * 2 ^ (-k).toNat, b)
  let f := nd.1 / nd.2
  let r2 := 2 * (nd.1 % nd.2)
  ⟨if r2 < nd.2 then f else if nd.2 < r2 then f + 1 else if f % 2 = 0 then f else f + 1, k⟩

/-- The binary64 value of a nonnegative Python int (PyFloat conversion). -/
def toDoubleNat (n : Nat) : Dy := if n = 0 then ⟨0, 0⟩ else roundMant n 0

/-- Binary64 multiplication of two nonnegative binary64 values. -/
def fmulD (x y : Dy) : Dy :=
  if x.m = 0 || y.m = 0 then ⟨0, 0⟩ else roundMant (x.m * y.m) (x.k + y.k)

/-- Python int(d) for a nonnegative float d: truncation toward zero. -/
def pyIntD (d : Dy) : Nat := if 0 ≤ d.k then d.m * 2 ^ d.k.toNat else d.m / 2 ^ (-d.k).toNat

/-- Python int(n * p) for an int n and a float p: n is converted to binary64
(CPython float multiplication converts the int operand first), the product is
rounded to nearest-even, and the result truncated toward zero. -/
def pyIntTimesFloat (n : Nat) (p : Dy) : Nat := pyIntD (fmulD (toDoubleNat n) p)

/-! ## config.py -/

def TOKEN_ADDRESSES : List (String × String) := [
  ("ATH", "0x1428444eacdc0fd115dd4318fce65b61cd1ef399"),
  ("USDe", "0xf4be938070f59764c85face374f92a4670ff3877"),
  ("LVLUSD", "0x8802b7bcf8eedcc9e1ba6c20e139bee89dd98e83"),
  ("VANA", "0xbebf4e25652e7f23ccdcccaacb32004501c4bff8"),
  ("AUSD", "0x78de28aabbd5198657b26a8dc9777f441551b477"),
  ("VUSD", "0xc14a8e2fc341a97a57524000bf0f7f1ba4de4802"),
  ("VANAUSD", "0x46a6585a0ad1750d37b4e6810eb59cbdf591dc30")]

def STAKING_ADDRESSES : List (String × String) := [
  ("AUSD", "0x054de909723ECda2d119E31583D40a52a332f85c"),
  ("VUSD", "0x5bb9Fa02a3DCCDB4E9099b48e8Ba5841D2e59d51"),
  ("POOL1", "0x3988053b7c748023a1ae19a8ed4c1bf217932bdb"),
  ("POOL2", "0x5de3fbd40d4c3892914c3b67b5b529d776a1483a"),
  ("POOL3", "0x2608a88219bfb34519f635dd9ca2ae971539ca60")]

def SWAP_ADDRESSES : List (String × String) := [
  ("ATH_TO_AUSD", "0x2cFDeE1d5f04dD235AEA47E1aD2fB66e3A61C13e"),
  ("VANA_TO_VANAUSD", "0xEfbAE3A68b17a61f21C7809Edfa8Aa3CA7B2546f"),
  ("MINT_SPECIAL", "0x3dcaca90a714498624067948c092dd0373f08265")]

def SWAP_PAIRS : List (String × String) := [("ATH", "AUSD"), ("VANA", "VANAUSD")]

def MIN_BALANCE : List (String × Nat) := [
  ("ATH", 10 ^ 18), ("USDe", 10 ^ 18), ("LVLUSD", 10 ^ 18), ("VANA", 10 ^ 18),
  ("AUSD", 10 ^ 18), ("VUSD", 10 ^ 18), ("VANAUSD", 10 ^ 18)]

/-- The binary64 value of the Python literal 0.1. -/
def float_0_1 : Dy := roundRat 1 10

/-- The binary64 value of the Python literal 0.2. -/
def float_0_2 : Dy := roundRat 1 5

/-- The binary64 value of the Python literal 0.4. -/
def float_0_4 : Dy := roundRat 2 5

/-- SWAP_PERCENTAGE = 0.3, as the binary64 value of the Python literal. -/
def SWAP_PERCENTAGE : Dy := roundRat 3 10

/-- STAKE_PERCENTAGE = 0.5, as the binary64 value of the Python literal. -/
def STAKE_PERCENTAGE : Dy := roundRat 1 2

def TX_CONFIRMATIONS : ℤ := 2

def TX_TIMEOUT : Nat := 300

/-- ERC20_ABI function names. -/
def ERC20_ABI : List String := ["approve", "balanceOf", "decimals", "symbol", "allowance"]

/-- MINT_TOKEN_ABI = ERC20_ABI + MINT_ABI function names. -/
def MINT_TOKEN_ABI : List String := ERC20_ABI ++ ["mint"]

/-! ## utils.py: wait_for_transaction

The loop polls web3.eth.get_transaction_receipt once per iteration.  One
poll can observe: a receipt equal to None (the code sleeps 2 s and
continues), a TransactionNotFound exception (the code sleeps 5 s and
continues), or a mined receipt carrying a status and a block number,
observed together with the current chain head web3.eth.block_number.
A run of the loop is driven by an abstract stream of such observations. -/

inductive Poll where
  | noReceipt
  | notFound
  | mined (status : Nat) (blockNumber : Int) (currentBlock : Int)
deriving DecidableEq

inductive WaitOutcome where
  /-- the receipt is returned: status nonzero, confirmation depth reached -/
  | confirmed (status : Nat) (blockNumber : Int) (currentBlock : Int)
  /-- ValueError: transaction failed (receipt status 0) -/
  | reverted
  /-- TimeoutError: elapsed wall-clock time exceeded TX_TIMEOUT -/
  | timedOut
deriving DecidableEq

/-- The fixed time.sleep duration the loop performs after a non-terminal
poll: 2 s after a None receipt, 5 s after TransactionNotFound, 5 s while a
mined transaction awaits confirmation depth. -/
def sleepAfter : Poll → Nat
  | .noReceipt => 2
  | .notFound => 5
  | .mined _ _ _ => 5

/-- A poll observation on which the loop keeps going. -/
def Unmined : Poll → Bool
  | .noReceipt => true
  | .notFound => true
  | .mined _ _ _ => false

def NonTerminal (conf : Int) : Poll → Prop
  | .noReceipt => True
  | .notFound => True
  | .mined s bn cb => s ≠ 0 ∧ cb - bn < conf

instance (conf : Int) (p : Poll) : Decidable (NonTerminal conf p) := by
  cases p <;> simp only [NonTerminal] <;> infer_instance

/-- One-for-one embedding of the while-loop body of wait_for_transaction:
elapsed is the wall-clock time since start_time at the head of the
iteration (the loop body itself is modelled as instantaneous, so elapsed
advances exactly by the sleeps), idx indexes the poll stream, and fuel
bounds the recursion; fuel exhaustion (result none) is unreachable for the
fuel wait_for_transaction supplies, because every iteration advances
elapsed by at least 2. -/
def waitLoop (timeout : Nat) (conf : Int) (polls : Nat → Poll) :
    Nat → Nat → Nat → Option WaitOutcome
  | 0, elapsed, _ => if timeout < elapsed then some .timedOut else none
  | fuel + 1, elapsed, idx =>
    if timeout < elapsed then some .timedOut
    else
      match polls idx with
      | .noReceipt => waitLoop timeout conf polls fuel (elapsed + 2) (idx + 1)
      | .notFound => waitLoop timeout conf polls fuel (elapsed + 5) (idx + 1)
      | .mined s bn cb =>
        if s = 0 then some .reverted
        else if conf ≤ cb - bn then some (.confirmed s bn cb)
        else waitLoop timeout conf polls fuel (elapsed + 5) (idx + 1)

/-- wait_for_transaction(web3, tx_hash, confirmations): runs the polling
loop from elapsed 0.  151 iterations always reach a terminal state, since
TX_TIMEOUT = 300 and each iteration sleeps at least 2 s; the .getD default
is never taken (waitLoop_isSome below). -/
def wait_for_transaction (polls : Nat → Poll) (confirmations : Int) : WaitOutcome :=
  (waitLoop TX_TIMEOUT confirmations polls 151 0 0).getD .timedOut

lemma waitLoop_isSome (timeout : Nat) (conf : Int) (polls : Nat → Poll) :
    ∀ fuel elapsed idx, timeout < elapsed + 2 * fuel →
      (waitLoop timeout conf polls fuel elapsed idx).isSome := by
  intro fuel
  induction fuel with
  | zero =>
    intro elapsed idx h
    simp only [waitLoop]
    rw [if_pos (by omega)]
    rfl
  | succ n ih =>
    intro elapsed idx h
    simp only [waitLoop]
    by_cases htime : timeout < elapsed
    · rw [if_pos htime]; rfl
    · rw [if_neg htime]
      cases hp : polls idx with
      | noReceipt => exact ih (elapsed + 2) (idx + 1) (by omega)
      | notFound => exact ih (elapsed + 5) (idx + 1) (by omega)
      | mined s bn cb =>
        dsimp only
        by_cases hs : s = 0
        · rw [if_pos hs]; rfl
        · rw [if_neg hs]
          by_cases hc : conf ≤ cb - bn
          · rw [if_pos hc]; rfl
          · rw [if_neg hc]
            exact ih (elapsed + 5) (idx + 1) (by omega)

lemma wait_eq_waitLoop (polls : Nat → Poll) (conf : Int) :
    waitLoop TX_TIMEOUT conf polls 151 0 0 = some (wait_for_transaction polls conf) := by
  have h := waitLoop_isSome TX_TIMEOUT conf polls 151 0 0 (by decide)
  unfold wait_for_transaction
  cases hw : waitLoop TX_TIMEOUT conf polls 151 0 0 with
  | none => rw [hw] at h; simp at h
  | some v => simp [hw]

/-! ## The chain environment and bot state

The chain is an oracle: balances are indexed by the balance-refresh round
(update_all_balances takes one consistent snapshot per call), allowance
reads are indexed by a running read counter, and each submitted transaction
gets its own stream of confirmation polls, indexed by submission order. -/

/-- One encoded contract-call argument. -/
inductive CallArg where
  | addr (a : String)
  | num (n : Nat)
deriving DecidableEq

/-- An encoded, signed and broadcast transaction: destination contract,
function name, arguments.  Nonce, gas price and gas limit are fetched or
fixed per send in the source and are not referenced by any claim. -/
structure SentTx where
  dest : String
  fn : String
  args : List CallArg
deriving DecidableEq

structure Env where
  /-- balance snapshot per refresh round, per token symbol -/
  balance : Nat → String → Nat
  /-- allowance per read counter, per (token, spender) -/
  allowance : Nat → String → String → Nat
  /-- confirmation-poll stream of the i-th submitted transaction -/
  polls : Nat → Nat → Poll

/-- self.token_balances is a dict keyed by exactly the TOKEN_ADDRESSES
symbols, so the cached balance is Option-valued: none models a KeyError. -/
structure BotState where
  round : Nat
  allowReads : Nat
  txCount : Nat
  sent : List SentTx
  cache : String → Option Nat

/-- A mined, confirmed receipt as returned by wait_for_transaction; the
transaction hash is modelled by the submission index. -/
structure Receipt where
  txIndex : Nat
  status : Nat
  blockNumber : Int
deriving DecidableEq

/-- Python exceptions that can escape an operation. -/
inductive Failure where
  /-- ValueError from wait_for_transaction on a status-0 receipt -/
  | reverted
  /-- TimeoutError from wait_for_transaction -/
  | timedOut
  /-- KeyError from a missing dict key -/
  | keyError
deriving DecidableEq

/-- Result of a bot operation: a value plus the state after it, or an
escaping exception plus the state at the raise (side effects on the chain
are not rolled back by an exception). -/
inductive StepResult (α : Type) where
  | ok (a : α) (st : BotState)
  | err (e : Failure) (st : BotState)

def StepResult.finalState : StepResult α → BotState
  | .ok _ st => st
  | .err _ st => st

def StepResult.failure? : StepResult α → Option Failure
  | .ok _ _ => none
  | .err e _ => some e

def StepResult.value? : StepResult α → Option α
  | .ok a _ => some a
  | .err _ _ => none

/-! ## utils.py: send_transaction, and bot.py: update_all_balances -/

/-- send_transaction: sign, broadcast (the transaction is recorded as sent
before its outcome is known), then wait_for_transaction with
confirmations = TX_CONFIRMATIONS.  A reverted or timed-out wait raises. -/
def send_transaction (env : Env) (tx : SentTx) (st : BotState) : StepResult Receipt :=
  match wait_for_transaction (env.polls st.txCount) TX_CONFIRMATIONS with
  | .confirmed s bn _ =>
    .ok ⟨st.txCount, s, bn⟩ { st with txCount := st.txCount + 1, sent := st.sent ++ [tx] }
  | .reverted => .err .reverted { st with txCount := st.txCount + 1, sent := st.sent ++ [tx] }
  | .timedOut => .err .timedOut { st with txCount := st.txCount + 1, sent := st.sent ++ [tx] }

/-- update_all_balances: one fresh snapshot of all TOKEN_ADDRESSES
balances; the dict afterwards holds exactly those seven keys. -/
def update_all_balances (env : Env) (st : BotState) : BotState :=
  { st with
    round := st.round + 1,
    cache := fun t => if (TOKEN_ADDRESSES.lookup t).isSome
                      then some (env.balance st.round t) else none }

/-! ## bot.py: the four primitive operations -/

/-- approve_token(token_symbol, spender_address, amount):
self.token_contracts[token_symbol] raises KeyError for unknown symbols;
otherwise the current allowance is read, and if it already covers amount
the method returns None without any transaction; otherwise one approve
transaction with exactly the requested amount is sent. -/
def approve_token (env : Env) (token spender : String) (amount : Nat)
    (st : BotState) : StepResult (Option Receipt) :=
  match TOKEN_ADDRESSES.lookup token with
  | none => .err .keyError st
  | some tokenAddr =>
    if amount ≤ env.allowance st.allowReads token spender then
      .ok none { st with allowReads := st.allowReads + 1 }
    else
      match send_transaction env ⟨tokenAddr, "approve", [.addr spender, .num amount]⟩
          { st with allowReads := st.allowReads + 1 } with
      | .ok r st'' => .ok (some r) st''
      | .err e st'' => .err e st''

/-- mint_token(token_symbol, amount), generalized over the ABI the token
contract is constructed with (the source always passes MINT_TOKEN_ABI):
returns None for an unknown symbol, returns None if the contract interface
has no mint attribute, otherwise sends one mint(amount) transaction. -/
def mint_token_with_abi (abi : List String) (env : Env) (token : String)
    (amount : Nat) (st : BotState) : StepResult (Option Receipt) :=
  match TOKEN_ADDRESSES.lookup token with
  | none => .ok none st
  | some tokenAddr =>
    if "mint" ∈ abi then
      match send_transaction env ⟨tokenAddr, "mint", [.num amount]⟩ st with
      | .ok r st' => .ok (some r) st'
      | .err e st' => .err e st'
    else .ok none st

def mint_token (env : Env) (token : String) (amount : Nat) (st : BotState) :
    StepResult (Option Receipt) :=
  mint_token_with_abi MINT_TOKEN_ABI env token amount st

/-- The pair-specific swap-function dispatch of swap_token (bot.py lines
142-162): the dedicated (ATH, AUSD) and (VANA, VANAUSD) pairs select their
dedicated router functions by name; every other pair falls back to the
default ABI whose single function is mint(amount). -/
def swapDispatch (from_token to_token : String) : String :=
  if from_token = "ATH" ∧ to_token = "AUSD" then "swapATHtoAUSD"
  else if from_token = "VANA" ∧ to_token = "VANAUSD" then "swapVANAtoVANAUSD"
  else "mint"

/-- swap_token(from_token, to_token, amount), generalized over the
SWAP_ADDRESSES configuration dict: returns None when no router is
configured for the pair key; otherwise approves the router (its result
value ignored, its exceptions propagating) and sends one transaction
calling the dispatched function with the amount. -/
def swap_token_with (swapAddresses : List (String × String)) (env : Env)
    (from_token to_token : String) (amount : Nat) (st : BotState) :
    StepResult (Option Receipt) :=
  match swapAddresses.lookup (from_token ++ "_TO_" ++ to_token) with
  | none => .ok none st
  | some router =>
    match approve_token env from_token router amount st with
    | .err e st' => .err e st'
    | .ok _ st' =>
      match send_transaction env ⟨router, swapDispatch from_token to_token, [.num amount]⟩ st' with
      | .ok r st'' => .ok (some r) st''
      | .err e st'' => .err e st''

def swap_token (env : Env) (from_token to_token : String) (amount : Nat)
    (st : BotState) : StepResult (Option Receipt) :=
  swap_token_with SWAP_ADDRESSES env from_token to_token amount st

/-- stake_token(token_symbol, amount): returns None when no staking pool is
configured for the token; otherwise approves the pool (result ignored,
exceptions propagating) and sends one stake(amount) transaction. -/
def stake_token (env : Env) (token : String) (amount : Nat) (st : BotState) :
    StepResult (Option Receipt) :=
  match STAKING_ADDRESSES.lookup token with
  | none => .ok none st
  | some stakingAddr =>
    match approve_token env token stakingAddr amount st with
    | .err e st' => .err e st'
    | .ok _ st' =>
      match send_transaction env ⟨stakingAddr, "stake", [.num amount]⟩ st' with
      | .ok r st'' => .ok (some r) st''
      | .err e st'' => .err e st''

/-! ## bot.py: run_auto_cycle -/

structure MintEntry where
  token : String
  amount : Nat
  txHash : Nat
deriving DecidableEq

structure SwapEntry where
  from_token : String
  to_token : String
  amount : Nat
  txHash : Nat
deriving DecidableEq

structure AutoStakeEntry where
  token : String
  amount : Nat
  txHash : Nat
deriving DecidableEq

structure AutoResults where
  mint : List MintEntry
  swap : List SwapEntry
  stake : List AutoStakeEntry
deriving DecidableEq

/-- The mint loop of run_auto_cycle: for each token symbol, read the cached
balance (a raw dict access), compare with MIN_BALANCE.get(token, 0), and if
low, mint double the minimum; a truthy result is appended to the report. -/
def mintPhase (env : Env) : List String → List MintEntry → BotState → StepResult (List MintEntry)
  | [], acc, st => .ok acc st
  | t :: ts, acc, st =>
    match st.cache t with
    | none => .err .keyError st
    | some balance =>
      let min_balance := (MIN_BALANCE.lookup t).getD 0
      if balance < min_balance then
        let mint_amount := min_balance * 2
        match mint_token env t mint_amount st with
        | .err e st' => .err e st'
        | .ok none st' => mintPhase env ts acc st'
        | .ok (some r) st' => mintPhase env ts (acc ++ [⟨t, mint_amount, r.txIndex⟩]) st'
      else mintPhase env ts acc st

/-- The swap loop of run_auto_cycle over the SWAP_PAIRS items: if the
cached balance is positive, swap int(balance * SWAP_PERCENTAGE). -/
def swapPhase (env : Env) : List (String × String) → List SwapEntry → BotState → StepResult (List SwapEntry)
  | [], acc, st => .ok acc st
  | (ft, tt) :: ps, acc, st =>
    match st.cache ft with
    | none => .err .keyError st
    | some balance =>
      if 0 < balance then
        let swap_amount := pyIntTimesFloat balance SWAP_PERCENTAGE
        match swap_token env ft tt swap_amount st with
        | .err e st' => .err e st'
        | .ok none st' => swapPhase env ps acc st'
        | .ok (some r) st' => swapPhase env ps (acc ++ [⟨ft, tt, swap_amount, r.txIndex⟩]) st'
      else swapPhase env ps acc st

/-- The stake loop of run_auto_cycle over the STAKING_ADDRESSES keys (which
include POOL1, POOL2, POOL3 - symbols absent from token_balances): if the
cached balance is positive, stake int(balance * STAKE_PERCENTAGE). -/
def stakePhase (env : Env) : List String → List AutoStakeEntry → BotState → StepResult (List AutoStakeEntry)
  | [], acc, st => .ok acc st
  | t :: ts, acc, st =>
    match st.cache t with
    | none => .err .keyError st
    | some balance =>
      if 0 < balance then
        let stake_amount := pyIntTimesFloat balance STAKE_PERCENTAGE
        match stake_token env t stake_amount st with
        | .err e st' => .err e st'
        | .ok none st' => stakePhase env ts acc st'
        | .ok (some r) st' => stakePhase env ts (acc ++ [⟨t, stake_amount, r.txIndex⟩]) st'
      else stakePhase env ts acc st

/-- run_auto_cycle: refresh, mint low balances, refresh, swap configured
pairs, refresh, stake, refresh.  An exception escaping any step aborts the
whole method at that point. -/
def run_auto_cycle (env : Env) (st : BotState) : StepResult AutoResults :=
  match mintPhase env (TOKEN_ADDRESSES.map Prod.fst) [] (update_all_balances env st) with
  | .err e st' => .err e st'
  | .ok mints st2 =>
    match swapPhase env SWAP_PAIRS [] (update_all_balances env st2) with
    | .err e st' => .err e st'
    | .ok swaps st4 =>
      match stakePhase env (STAKING_ADDRESSES.map Prod.fst) [] (update_all_balances env st4) with
      | .err e st' => .err e st'
      | .ok stakes st6 => .ok ⟨mints, swaps, stakes⟩ (update_all_balances env st6)

/-! ## bot.py: run_maitrix_sequence -/

structure ApproveEntry where
  token : String
  spender : String
  amount : Nat
  txHash : Nat
deriving DecidableEq

structure SeqStakeEntry where
  token : String
  pool : String
  amount : Nat
  txHash : Nat
deriving DecidableEq

structure MaitrixResults where
  approve : List ApproveEntry
  swap : List SwapEntry
  stake : List SeqStakeEntry
deriving DecidableEq

/-- One step of run_maitrix_sequence. -/
def Step := Env → MaitrixResults → BotState → StepResult MaitrixResults

/-- A step of the shape: amount = int(float(balance[token]) * pct); if
positive, approve_token(token, spender, amount) and record a truthy result
in the approve report. -/
def approveStep (token spender : String) (pct : Dy) : Step := fun env res st =>
  match st.cache token with
  | none => .err .keyError st
  | some b =>
    let amount := pyIntTimesFloat b pct
    if 0 < amount then
      match approve_token env token spender amount st with
      | .err e st' => .err e st'
      | .ok none st' => .ok res st'
      | .ok (some r) st' =>
        .ok { res with approve := res.approve ++ [⟨token, spender, amount, r.txIndex⟩] } st'
    else .ok res st

/-- A step of the shape: amount = int(float(balance[token]) * pct); if
positive, stake_token(token, amount) and record a truthy result, with the
pool looked up from STAKING_ADDRESSES, in the stake report. -/
def stakeStep (token : String) (pct : Dy) : Step := fun env res st =>
  match st.cache token with
  | none => .err .keyError st
  | some b =>
    let amount := pyIntTimesFloat b pct
    if 0 < amount then
      match stake_token env token amount st with
      | .err e st' => .err e st'
      | .ok none st' => .ok res st'
      | .ok (some r) st' =>
        .ok { res with stake := res.stake ++
          [⟨token, (STAKING_ADDRESSES.lookup token).getD "", amount, r.txIndex⟩] } st'
    else .ok res st

/-- A step of the shape: amount = int(float(balance[from]) * pct); if
positive, swap_token(from, to, amount) and record a truthy result in the
swap report. -/
def swapStep (from_token to_token : String) (pct : Dy) : Step := fun env res st =>
  match st.cache from_token with
  | none => .err .keyError st
  | some b =>
    let amount := pyIntTimesFloat b pct
    if 0 < amount then
      match swap_token env from_token to_token amount st with
      | .err e st' => .err e st'
      | .ok none st' => .ok res st'
      | .ok (some r) st' =>
        .ok { res with swap := res.swap ++ [⟨from_token, to_token, amount, r.txIndex⟩] } st'
    else .ok res st

/-- Steps 7, 8 and 10: amount = int(float(balance[ATH]) * 0.1); if
positive, approve ATH for the pool (result ignored) and send a direct
stake(amount) transaction to the pool contract, recording the result. -/
def poolStakeStep (pool : String) : Step := fun env res st =>
  match st.cache "ATH" with
  | none => .err .keyError st
  | some b =>
    let amount := pyIntTimesFloat b float_0_1
    if 0 < amount then
      match approve_token env "ATH" pool amount st with
      | .err e st' => .err e st'
      | .ok _ st' =>
        match send_transaction env ⟨pool, "stake", [.num amount]⟩ st' with
        | .err e st'' => .err e st''
        | .ok r st'' =>
          .ok { res with stake := res.stake ++ [⟨"ATH", pool, amount, r.txIndex⟩] } st''
    else .ok res st

/-- A balance refresh point inside the sequence. -/
def refreshStep : Step := fun env res st => .ok res (update_all_balances env st)

/-- Step 1: approve 40% of the VANA balance for the VANA_TO_VANAUSD router. -/
def step1 : Step := approveStep "VANA" ((SWAP_ADDRESSES.lookup "VANA_TO_VANAUSD").getD "") float_0_4

/-- Step 2: stake 50% of the AUSD balance. -/
def step2 : Step := stakeStep "AUSD" STAKE_PERCENTAGE

/-- Step 3: swap 20% of the ATH balance to AUSD. -/
def step3 : Step := swapStep "ATH" "AUSD" float_0_2

/-- Step 4: swap 20% of the VANA balance to VANAUSD. -/
def step4 : Step := swapStep "VANA" "VANAUSD" float_0_2

/-- Step 5: stake 50% of the VUSD balance. -/
def step5 : Step := stakeStep "VUSD" STAKE_PERCENTAGE

/-- Step 6: stake 50% of the AUSD balance again. -/
def step6 : Step := stakeStep "AUSD" STAKE_PERCENTAGE

/-- Step 7: stake 10% of the ATH balance in POOL1. -/
def step7 : Step := poolStakeStep ((STAKING_ADDRESSES.lookup "POOL1").getD "")

/-- Step 8: stake 10% of the ATH balance in POOL2. -/
def step8 : Step := poolStakeStep ((STAKING_ADDRESSES.lookup "POOL2").getD "")

/-- Step 9: approve 50% of the VANAUSD balance, with the spender set to
TOKEN_ADDRESSES[VANAUSD] - the VANAUSD token contract itself. -/
def step9 : Step := approveStep "VANAUSD" ((TOKEN_ADDRESSES.lookup "VANAUSD").getD "") STAKE_PERCENTAGE

/-- Step 10: stake 10% of the ATH balance in POOL3. -/
def step10 : Step := poolStakeStep ((STAKING_ADDRESSES.lookup "POOL3").getD "")

/-- The ordered steps of run_maitrix_sequence, with its balance-refresh
points after step 3 and after step 4, and the final refresh. -/
def maitrixSteps : List Step :=
  [step1, step2, step3, refreshStep, step4, refreshStep,
   step5, step6, step7, step8, step9, step10, refreshStep]

def runSteps (env : Env) : List Step → MaitrixResults → BotState → StepResult MaitrixResults
  | [], res, st => .ok res st
  | f :: fs, res, st =>
    match f env res st with
    | .ok res' st' => runSteps env fs res' st'
    | .err e st' => .err e st'

/-- run_maitrix_sequence: initial refresh, then the ten hardcoded steps
with their interleaved refreshes.  An exception escaping any step aborts
the whole method at that point. -/
def run_maitrix_sequence (env : Env) (st : BotState) : StepResult MaitrixResults :=
  runSteps env maitrixSteps ⟨[], [], []⟩ (update_all_balances env st)

/-! ## Helper lemmas about the confirmation tracker -/

/-- The polling stream of transaction i ends in a confirmed receipt. -/
def Confirms (polls : Nat → Poll) : Prop :=
  ∃ s bn cb, wait_for_transaction polls TX_CONFIRMATIONS = .confirmed s bn cb

/-- Every transaction the environment will see gets confirmed. -/
def AllConfirm (env : Env) : Prop := ∀ i, Confirms (env.polls i)

/-- Transaction i reached a terminal mined state with nonzero status at
the required confirmation depth. -/
def ConfirmedTx (env : Env) (i : Nat) : Prop :=
  ∃ s bn cb, wait_for_transaction (env.polls i) TX_CONFIRMATIONS = .confirmed s bn cb
    ∧ s ≠ 0 ∧ TX_CONFIRMATIONS ≤ cb - bn

lemma waitLoop_confirmed (timeout : Nat) (conf : Int) (polls : Nat → Poll) :
    ∀ fuel elapsed idx s bn cb,
      waitLoop timeout conf polls fuel elapsed idx = some (.confirmed s bn cb) →
      s ≠ 0 ∧ conf ≤ cb - bn := by
  intro fuel
  induction fuel with
  | zero =>
    intro elapsed idx s bn cb h
    simp only [waitLoop] at h
    split at h <;> simp_all
  | succ n ih =>
    intro elapsed idx s bn cb h
    simp only [waitLoop] at h
    split at h
    · simp_all
    · cases hp : polls idx with
      | noReceipt => rw [hp] at h; exact ih _ _ _ _ _ h
      | notFound => rw [hp] at h; exact ih _ _ _ _ _ h
      | mined s' bn' cb' =>
        rw [hp] at h
        dsimp only at h
        split at h
        · simp_all
        · split at h
          · rename_i hs hc
            simp only [Option.some.injEq, WaitOutcome.confirmed.injEq] at h
            obtain ⟨rfl, rfl, rfl⟩ := h
            exact ⟨hs, hc⟩
          · exact ih _ _ _ _ _ h

lemma wait_confirmed_spec (polls : Nat → Poll) (s : Nat) (bn cb : Int)
    (h : wait_for_transaction polls TX_CONFIRMATIONS = .confirmed s bn cb) :
    s ≠ 0 ∧ TX_CONFIRMATIONS ≤ cb - bn := by
  have he := wait_eq_waitLoop polls TX_CONFIRMATIONS
  rw [h] at he
  exact waitLoop_confirmed TX_TIMEOUT TX_CONFIRMATIONS polls 151 0 0 s bn cb he

lemma waitLoop_step (timeout : Nat) (conf : Int) (polls : Nat → Poll)
    (fuel elapsed idx : Nat) (ht : elapsed ≤ timeout)
    (hnt : NonTerminal conf (polls idx)) :
    waitLoop timeout conf polls (fuel + 1) elapsed idx =
      waitLoop timeout conf polls fuel (elapsed + sleepAfter (polls idx)) (idx + 1) := by
  simp only [waitLoop]
  rw [if_neg (by omega)]
  cases hp : polls idx with
  | noReceipt => rfl
  | notFound => rfl
  | mined s bn cb =>
    rw [hp] at hnt
    obtain ⟨hs, hc⟩ := hnt
    dsimp only [sleepAfter]
    rw [if_neg hs, if_neg (by omega)]

lemma waitLoop_allNonTerminal (timeout : Nat) (conf : Int) (polls : Nat → Poll)
    (hnt : ∀ j, NonTerminal conf (polls j)) :
    ∀ fuel elapsed idx,
      waitLoop timeout conf polls fuel elapsed idx = none ∨
      waitLoop timeout conf polls fuel elapsed idx = some .timedOut := by
  intro fuel
  induction fuel with
  | zero =>
    intro elapsed idx
    simp only [waitLoop]
    split
    · right; rfl
    · left; rfl
  | succ n ih =>
    intro elapsed idx
    simp only [waitLoop]
    split
    · right; rfl
    · cases hp : polls idx with
      | noReceipt => exact ih _ _
      | notFound => exact ih _ _
      | mined s bn cb =>
        have h := hnt idx
        rw [hp] at h
        obtain ⟨hs, hc⟩ := h
        dsimp only
        rw [if_neg hs, if_neg (by omega)]
        exact ih _ _

lemma wait_allNonTerminal_timedOut (polls : Nat → Poll) (conf : Int)
    (hnt : ∀ j, NonTerminal conf (polls j)) :
    wait_for_transaction polls conf = .timedOut := by
  have he := wait_eq_waitLoop polls conf
  rcases waitLoop_allNonTerminal TX_TIMEOUT conf polls hnt 151 0 0 with h | h
  · rw [h] at he; cases he
  · rw [h] at he
    injection he with he'
    exact he'.symm

lemma waitLoop_timeout_now (timeout : Nat) (conf : Int) (polls : Nat → Poll)
    (fuel elapsed idx : Nat) (h : timeout < elapsed) :
    waitLoop timeout conf polls fuel elapsed idx = some .timedOut := by
  cases fuel <;> simp only [waitLoop] <;> rw [if_pos h]

/-! ## Helper lemmas about send_transaction and the primitives -/

lemma send_finalState (env : Env) (tx : SentTx) (st : BotState) :
    (send_transaction env tx st).finalState =
      { st with txCount := st.txCount + 1, sent := st.sent ++ [tx] } := by
  unfold send_transaction
  cases wait_for_transaction (env.polls st.txCount) TX_CONFIRMATIONS <;> rfl

lemma send_ok_of_confirms (env : Env) (tx : SentTx) (st : BotState)
    (h : Confirms (env.polls st.txCount)) :
    ∃ r, send_transaction env tx st =
      .ok r { st with txCount := st.txCount + 1, sent := st.sent ++ [tx] } := by
  obtain ⟨s, bn, cb, hw⟩ := h
  exact ⟨⟨st.txCount, s, bn⟩, by unfold send_transaction; rw [hw]⟩

lemma send_ok_confirmed (env : Env) (tx : SentTx) (st : BotState) (r : Receipt)
    (st' : BotState) (h : send_transaction env tx st = .ok r st') :
    ConfirmedTx env r.txIndex ∧
      st' = { st with txCount := st.txCount + 1, sent := st.sent ++ [tx] } := by
  unfold send_transaction at h
  cases hw : wait_for_transaction (env.polls st.txCount) TX_CONFIRMATIONS with
  | confirmed s bn cb =>
    rw [hw] at h
    injection h with h1 h2
    obtain ⟨hs, hc⟩ := wait_confirmed_spec _ _ _ _ hw
    subst h2
    refine ⟨?_, rfl⟩
    rw [← h1]
    exact ⟨s, bn, cb, hw, hs, hc⟩
  | reverted => rw [hw] at h; cases h
  | timedOut => rw [hw] at h; cases h

lemma send_cache_round (env : Env) (tx : SentTx) (st : BotState) :
    (send_transaction env tx st).finalState.cache = st.cache ∧
      (send_transaction env tx st).finalState.round = st.round := by
  rw [send_finalState]
  exact ⟨rfl, rfl⟩

lemma approve_ok_of_confirms (env : Env) (token spender : String) (amount : Nat)
    (st : BotState) (ht : (TOKEN_ADDRESSES.lookup token).isSome)
    (hc : AllConfirm env) :
    ∃ v st', approve_token env token spender amount st = .ok v st' ∧
      st'.cache = st.cache ∧ st'.round = st.round ∧
      ∃ pre, st'.sent = st.sent ++ pre := by
  obtain ⟨a, ha⟩ := Option.isSome_iff_exists.mp ht
  unfold approve_token
  rw [ha]
  dsimp only
  split
  · exact ⟨none, _, rfl, rfl, rfl, [], by simp⟩
  · obtain ⟨r, hr⟩ := send_ok_of_confirms env
      ⟨a, "approve", [.addr spender, .num amount]⟩
      { st with allowReads := st.allowReads + 1 } (hc _)
    rw [hr]
    exact ⟨some r, _, rfl, rfl, rfl, [⟨a, "approve", [.addr spender, .num amount]⟩], rfl⟩

lemma approve_some_confirmed (env : Env) (token spender : String) (amount : Nat)
    (st st' : BotState) (r : Receipt)
    (h : approve_token env token spender amount st = .ok (some r) st') :
    ConfirmedTx env r.txIndex := by
  unfold approve_token at h
  cases ha : TOKEN_ADDRESSES.lookup token with
  | none => rw [ha] at h; cases h
  | some a =>
    rw [ha] at h
    dsimp only at h
    split at h
    · cases h
    · cases hs : send_transaction env ⟨a, "approve", [.addr spender, .num amount]⟩
          { st with allowReads := st.allowReads + 1 } with
      | ok r' st'' =>
        rw [hs] at h
        injection h with h1 h2
        injection h1 with h1
        subst h1
        exact (send_ok_confirmed _ _ _ _ _ hs).1
      | err e st'' => rw [hs] at h; cases h

lemma mint_ok_of_confirms (env : Env) (token : String) (amount : Nat)
    (st : BotState) (hc : AllConfirm env) :
    ∃ v st', mint_token env token amount st = .ok v st' ∧
      st'.cache = st.cache ∧ st'.round = st.round := by
  unfold mint_token mint_token_with_abi
  cases ha : TOKEN_ADDRESSES.lookup token with
  | none => exact ⟨none, st, rfl, rfl, rfl⟩
  | some a =>
    dsimp only
    rw [if_pos (by decide : "mint" ∈ MINT_TOKEN_ABI)]
    obtain ⟨r, hr⟩ := send_ok_of_confirms env ⟨a, "mint", [.num amount]⟩ st (hc _)
    rw [hr]
    exact ⟨some r, _, rfl, rfl, rfl⟩

lemma mint_some_confirmed (env : Env) (token : String) (amount : Nat)
    (st st' : BotState) (r : Receipt)
    (h : mint_token env token amount st = .ok (some r) st') :
    ConfirmedTx env r.txIndex := by
  unfold mint_token mint_token_with_abi at h
  cases ha : TOKEN_ADDRESSES.lookup token with
  | none => rw [ha] at h; cases h
  | some a =>
    rw [ha] at h
    dsimp only at h
    rw [if_pos (by decide : "mint" ∈ MINT_TOKEN_ABI)] at h
    cases hs : send_transaction env ⟨a, "mint", [.num amount]⟩ st with
    | ok r' st'' =>
      rw [hs] at h
      injection h with h1 h2
      injection h1 with h1
      subst h1
      exact (send_ok_confirmed _ _ _ _ _ hs).1
    | err e st'' => rw [hs] at h; cases h

lemma swap_ok_of_confirms (env : Env) (ft tt : String) (amount : Nat)
    (st : BotState) (hft : (TOKEN_ADDRESSES.lookup ft).isSome)
    (hc : AllConfirm env) :
    ∃ v st', swap_token env ft tt amount st = .ok v st' ∧
      st'.cache = st.cache ∧ st'.round = st.round := by
  unfold swap_token swap_token_with
  cases hk : SWAP_ADDRESSES.lookup (ft ++ "_TO_" ++ tt) with
  | none => exact ⟨none, st, rfl, rfl, rfl⟩
  | some router =>
    dsimp only
    obtain ⟨v, st1, happ, hcache, hround, hsent⟩ :=
      approve_ok_of_confirms env ft router amount st hft hc
    rw [happ]
    dsimp only
    obtain ⟨r, hr⟩ := send_ok_of_confirms env
      ⟨router, swapDispatch ft tt, [.num amount]⟩ st1 (hc _)
    rw [hr]
    exact ⟨some r, _, rfl, by simpa using hcache, by simpa using hround⟩

lemma swap_some_confirmed (env : Env) (ft tt : String) (amount : Nat)
    (st st' : BotState) (r : Receipt)
    (h : swap_token env ft tt amount st = .ok (some r) st') :
    ConfirmedTx env r.txIndex := by
  unfold swap_token swap_token_with at h
  cases hk : SWAP_ADDRESSES.lookup (ft ++ "_TO_" ++ tt) with
  | none => rw [hk] at h; cases h
  | some router =>
    rw [hk] at h
    dsimp only at h
    cases happ : approve_token env ft router amount st with
    | err e st1 => rw [happ] at h; cases h
    | ok v st1 =>
      rw [happ] at h
      dsimp only at h
      cases hs : send_transaction env ⟨router, swapDispatch ft tt, [.num amount]⟩ st1 with
      | ok r' st'' =>
        rw [hs] at h
        injection h with h1 h2
        injection h1 with h1
        subst h1
        exact (send_ok_confirmed _ _ _ _ _ hs).1
      | err e st'' => rw [hs] at h; cases h

lemma stake_ok_of_confirms (env : Env) (token : String) (amount : Nat)
    (st : BotState) (ht : (TOKEN_ADDRESSES.lookup token).isSome)
    (hc : AllConfirm env) :
    ∃ v st', stake_token env token amount st = .ok v st' ∧
      st'.cache = st.cache ∧ st'.round = st.round := by
  unfold stake_token
  cases hk : STAKING_ADDRESSES.lookup token with
  | none => exact ⟨none, st, rfl, rfl, rfl⟩
  | some pool =>
    dsimp only
    obtain ⟨v, st1, happ, hcache, hround, hsent⟩ :=
      approve_ok_of_confirms env token pool amount st ht hc
    rw [happ]
    dsimp only
    obtain ⟨r, hr⟩ := send_ok_of_confirms env ⟨pool, "stake", [.num amount]⟩ st1 (hc _)
    rw [hr]
    exact ⟨some r, _, rfl, by simpa using hcache, by simpa using hround⟩

lemma stake_some_confirmed (env : Env) (token : String) (amount : Nat)
    (st st' : BotState) (r : Receipt)
    (h : stake_token env token amount st = .ok (some r) st') :
    ConfirmedTx env r.txIndex := by
  unfold stake_token at h
  cases hk : STAKING_ADDRESSES.lookup token with
  | none => rw [hk] at h; cases h
  | some pool =>
    rw [hk] at h
    dsimp only at h
    cases happ : approve_token env token pool amount st with
    | err e st1 => rw [happ] at h; cases h
    | ok v st1 =>
      rw [happ] at h
      dsimp only at h
      cases hs : send_transaction env ⟨pool, "stake", [.num amount]⟩ st1 with
      | ok r' st'' =>
        rw [hs] at h
        injection h with h1 h2
        injection h1 with h1
        subst h1
        exact (send_ok_confirmed _ _ _ _ _ hs).1
      | err e st'' => rw [hs] at h; cases h

/-! ## Helper lemmas about the auto-cycle phases -/

/-- token_balances holds exactly the TOKEN_ADDRESSES keys. -/
def CacheOK (st : BotState) : Prop :=
  ∀ t, (st.cache t).isSome = (TOKEN_ADDRESSES.lookup t).isSome

lemma update_cacheOK (env : Env) (st : BotState) :
    CacheOK (update_all_balances env st) := by
  intro t
  unfold update_all_balances
  dsimp only
  cases hls : (TOKEN_ADDRESSES.lookup t).isSome <;> simp [hls]

lemma mintPhase_ok (env : Env) (hc : AllConfirm env) :
    ∀ tokens acc st, CacheOK st →
      (∀ t ∈ tokens, (TOKEN_ADDRESSES.lookup t).isSome) →
      ∃ acc' st', mintPhase env tokens acc st = .ok acc' st' ∧
        st'.cache = st.cache ∧ st'.round = st.round := by
  intro tokens
  induction tokens with
  | nil => exact fun acc st _ _ => ⟨acc, st, rfl, rfl, rfl⟩
  | cons t ts ih =>
    intro acc st hok htoks
    have hsome : (st.cache t).isSome := by
      rw [hok t]; exact htoks t (List.mem_cons_self _ _)
    obtain ⟨b, hb⟩ := Option.isSome_iff_exists.mp hsome
    unfold mintPhase
    rw [hb]
    dsimp only
    split
    · obtain ⟨v, st1, hm, hmc, hmr⟩ :=
        mint_ok_of_confirms env t ((MIN_BALANCE.lookup t).getD 0 * 2) st hc
      rw [hm]
      have hok1 : CacheOK st1 := by intro u; rw [hmc]; exact hok u
      have hts : ∀ u ∈ ts, (TOKEN_ADDRESSES.lookup u).isSome :=
        fun u hu => htoks u (List.mem_cons_of_mem _ hu)
      cases v with
      | none =>
        obtain ⟨acc', st2, hrec, h1, h2⟩ := ih acc st1 hok1 hts
        exact ⟨acc', st2, hrec, h1.trans hmc, h2.trans hmr⟩
      | some r =>
        obtain ⟨acc', st2, hrec, h1, h2⟩ :=
          ih (acc ++ [⟨t, (MIN_BALANCE.lookup t).getD 0 * 2, r.txIndex⟩]) st1 hok1 hts
        exact ⟨acc', st2, hrec, h1.trans hmc, h2.trans hmr⟩
    · exact ih acc st hok fun u hu => htoks u (List.mem_cons_of_mem _ hu)

lemma swapPhase_ok (env : Env) (hc : AllConfirm env) :
    ∀ pairs acc st, CacheOK st →
      (∀ p ∈ pairs, (TOKEN_ADDRESSES.lookup (Prod.fst p)).isSome) →
      ∃ acc' st', swapPhase env pairs acc st = .ok acc' st' ∧
        st'.cache = st.cache ∧ st'.round = st.round := by
  intro pairs
  induction pairs with
  | nil => exact fun acc st _ _ => ⟨acc, st, rfl, rfl, rfl⟩
  | cons p ps ih =>
    obtain ⟨ft, tt⟩ := p
    intro acc st hok hpairs
    have hsome : (st.cache ft).isSome := by
      rw [hok ft]; exact hpairs (ft, tt) (List.mem_cons_self _ _)
    obtain ⟨b, hb⟩ := Option.isSome_iff_exists.mp hsome
    unfold swapPhase
    rw [hb]
    dsimp only
    split
    · obtain ⟨v, st1, hm, hmc, hmr⟩ :=
        swap_ok_of_confirms env ft tt (pyIntTimesFloat b SWAP_PERCENTAGE) st
          (hpairs (ft, tt) (List.mem_cons_self _ _)) hc
      rw [hm]
      have hok1 : CacheOK st1 := by intro u; rw [hmc]; exact hok u
      have hps : ∀ q ∈ ps, (TOKEN_ADDRESSES.lookup (Prod.fst q)).isSome :=
        fun q hq => hpairs q (List.mem_cons_of_mem _ hq)
      cases v with
      | none =>
        obtain ⟨acc', st2, hrec, h1, h2⟩ := ih acc st1 hok1 hps
        exact ⟨acc', st2, hrec, h1.trans hmc, h2.trans hmr⟩
      | some r =>
        obtain ⟨acc', st2, hrec, h1, h2⟩ :=
          ih (acc ++ [⟨ft, tt, pyIntTimesFloat b SWAP_PERCENTAGE, r.txIndex⟩]) st1 hok1 hps
        exact ⟨acc', st2, hrec, h1.trans hmc, h2.trans hmr⟩
    · exact ih acc st hok fun q hq => hpairs q (List.mem_cons_of_mem _ hq)

lemma stakePhase_cons_eq (env : Env) (t : String) (ts : List String)
    (acc : List AutoStakeEntry) (st : BotState) :
    stakePhase env (t :: ts) acc st =
      match st.cache t with
      | none => .err .keyError st
      | some balance =>
        if 0 < balance then
          match stake_token env t (pyIntTimesFloat balance STAKE_PERCENTAGE) st with
          | .err e st' => .err e st'
          | .ok none st' => stakePhase env ts acc st'
          | .ok (some r) st' =>
            stakePhase env ts
              (acc ++ [⟨t, pyIntTimesFloat balance STAKE_PERCENTAGE, r.txIndex⟩]) st'
        else stakePhase env ts acc st := rfl

lemma stakePhase_cons (env : Env) (t : String) (ts : List String)
    (acc : List AutoStakeEntry) (st : BotState) (hc : AllConfirm env)
    (ht : (TOKEN_ADDRESSES.lookup t).isSome) (hsome : (st.cache t).isSome) :
    ∃ acc' st1, stakePhase env (t :: ts) acc st = stakePhase env ts acc' st1 ∧
      st1.cache = st.cache ∧ st1.round = st.round := by
  obtain ⟨b, hb⟩ := Option.isSome_iff_exists.mp hsome
  obtain ⟨v, st1, hm, hmc, hmr⟩ :=
    stake_ok_of_confirms env t (pyIntTimesFloat b STAKE_PERCENTAGE) st ht hc
  by_cases hpos : 0 < b
  · cases v with
    | none =>
      refine ⟨acc, st1, ?_, hmc, hmr⟩
      rw [stakePhase_cons_eq, hb]
      dsimp only
      rw [if_pos hpos, hm]
    | some r =>
      refine ⟨acc ++ [⟨t, pyIntTimesFloat b STAKE_PERCENTAGE, r.txIndex⟩], st1, ?_, hmc, hmr⟩
      rw [stakePhase_cons_eq, hb]
      dsimp only
      rw [if_pos hpos, hm]
  · refine ⟨acc, st, ?_, rfl, rfl⟩
    rw [stakePhase_cons_eq, hb]
    dsimp only
    rw [if_neg hpos]

/-- The stake loop of run_auto_cycle always raises KeyError at POOL1: the
first two keys are real tokens, but token_balances has no POOL1 entry. -/
lemma stakePhase_keyError (env : Env) (hc : AllConfirm env)
    (acc : List AutoStakeEntry) (st : BotState) (hok : CacheOK st) :
    ∃ st', stakePhase env (STAKING_ADDRESSES.map Prod.fst) acc st = .err .keyError st' := by
  have h1 : (st.cache "AUSD").isSome := by rw [hok]; decide
  obtain ⟨acc1, st1, he1, hc1, hr1⟩ :=
    stakePhase_cons env "AUSD" ["VUSD", "POOL1", "POOL2", "POOL3"] acc st hc (by decide) h1
  have h2 : (st1.cache "VUSD").isSome := by rw [hc1, hok]; decide
  obtain ⟨acc2, st2, he2, hc2, hr2⟩ :=
    stakePhase_cons env "VUSD" ["POOL1", "POOL2", "POOL3"] acc1 st1 hc (by decide) h2
  have h3 : st2.cache "POOL1" = none := by
    have h := hok "POOL1"
    rw [← hc1, ← hc2] at h
    cases hcc : st2.cache "POOL1" with
    | none => rfl
    | some x =>
      rw [hcc] at h
      have h' : (true : Bool) = (List.lookup "POOL1" TOKEN_ADDRESSES).isSome := h
      exact absurd h' (by decide)
  refine ⟨st2, ?_⟩
  show stakePhase env ("AUSD" :: ["VUSD", "POOL1", "POOL2", "POOL3"]) acc st = _
  rw [he1, he2]
  unfold stakePhase
  rw [h3]

lemma mintPhase_entries (env : Env) :
    ∀ tokens acc st res st', mintPhase env tokens acc st = .ok res st' →
      ∀ e ∈ res, e ∈ acc ∨ ConfirmedTx env e.txHash := by
  intro tokens
  induction tokens with
  | nil =>
    intro acc st res st' h e he
    unfold mintPhase at h
    injection h with h1 h2
    subst h1
    exact Or.inl he
  | cons t ts ih =>
    intro acc st res st' h e he
    unfold mintPhase at h
    cases hb : st.cache t with
    | none => rw [hb] at h; cases h
    | some b =>
      rw [hb] at h
      dsimp only at h
      split at h
      · cases hm : mint_token env t ((MIN_BALANCE.lookup t).getD 0 * 2) st with
        | err e' st1 => rw [hm] at h; cases h
        | ok v st1 =>
          rw [hm] at h
          cases v with
          | none => exact ih _ _ _ _ h e he
          | some r =>
            rcases ih _ _ _ _ h e he with hmem | hconf
            · rcases List.mem_append.mp hmem with hmem' | hmem'
              · exact Or.inl hmem'
              · right
                have : e = ⟨t, (MIN_BALANCE.lookup t).getD 0 * 2, r.txIndex⟩ :=
                  List.mem_singleton.mp hmem'
                rw [this]
                exact mint_some_confirmed env t _ st st1 r hm
            · exact Or.inr hconf
      · exact ih _ _ _ _ h e he

lemma swapPhase_entries (env : Env) :
    ∀ pairs acc st res st', swapPhase env pairs acc st = .ok res st' →
      ∀ e ∈ res, e ∈ acc ∨ ConfirmedTx env e.txHash := by
  intro pairs
  induction pairs with
  | nil =>
    intro acc st res st' h e he
    unfold swapPhase at h
    injection h with h1 h2
    subst h1
    exact Or.inl he
  | cons p ps ih =>
    obtain ⟨ft, tt⟩ := p
    intro acc st res st' h e he
    unfold swapPhase at h
    cases hb : st.cache ft with
    | none => rw [hb] at h; cases h
    | some b =>
      rw [hb] at h
      dsimp only at h
      split at h
      · cases hm : swap_token env ft tt (pyIntTimesFloat b SWAP_PERCENTAGE) st with
        | err e' st1 => rw [hm] at h; cases h
        | ok v st1 =>
          rw [hm] at h
          cases v with
          | none => exact ih _ _ _ _ h e he
          | some r =>
            rcases ih _ _ _ _ h e he with hmem | hconf
            · rcases List.mem_append.mp hmem with hmem' | hmem'
              · exact Or.inl hmem'
              · right
                have : e = ⟨ft, tt, pyIntTimesFloat b SWAP_PERCENTAGE, r.txIndex⟩ :=
                  List.mem_singleton.mp hmem'
                rw [this]
                exact swap_some_confirmed env ft tt _ st st1 r hm
            · exact Or.inr hconf
      · exact ih _ _ _ _ h e he

lemma stakePhase_entries (env : Env) :
    ∀ tokens acc st res st', stakePhase env tokens acc st = .ok res st' →
      ∀ e ∈ res, e ∈ acc ∨ ConfirmedTx env e.txHash := by
  intro tokens
  induction tokens with
  | nil =>
    intro acc st res st' h e he
    unfold stakePhase at h
    injection h with h1 h2
    subst h1
    exact Or.inl he
  | cons t ts ih =>
    intro acc st res st' h e he
    unfold stakePhase at h
    cases hb : st.cache t with
    | none => rw [hb] at h; cases h
    | some b =>
      rw [hb] at h
      dsimp only at h
      split at h
      · cases hm : stake_token env t (pyIntTimesFloat b STAKE_PERCENTAGE) st with
        | err e' st1 => rw [hm] at h; cases h
        | ok v st1 =>
          rw [hm] at h
          cases v with
          | none => exact ih _ _ _ _ h e he
          | some r =>
            rcases ih _ _ _ _ h e he with hmem | hconf
            · rcases List.mem_append.mp hmem with hmem' | hmem'
              · exact Or.inl hmem'
              · right
                have : e = ⟨t, pyIntTimesFloat b STAKE_PERCENTAGE, r.txIndex⟩ :=
                  List.mem_singleton.mp hmem'
                rw [this]
                exact stake_some_confirmed env t _ st st1 r hm
            · exact Or.inr hconf
      · exact ih _ _ _ _ h e he

/-! ## Helper lemmas about the scripted-sequence steps -/

/-- Under this environment the step returns normally and leaves the
balance-cache well-formed. -/
def StepTotal (f : Step) : Prop :=
  ∀ env res st, AllConfirm env → CacheOK st →
    ∃ res' st', f env res st = .ok res' st' ∧ CacheOK st'

/-- Every report entry the step adds refers to a confirmed transaction. -/
def GoodRes (env : Env) (res : MaitrixResults) : Prop :=
  (∀ e ∈ res.approve, ConfirmedTx env e.txHash) ∧
  (∀ e ∈ res.swap, ConfirmedTx env e.txHash) ∧
  (∀ e ∈ res.stake, ConfirmedTx env e.txHash)

def StepGood (f : Step) : Prop :=
  ∀ env res st res' st', f env res st = .ok res' st' → GoodRes env res → GoodRes env res'

lemma approveStep_total (token spender : String) (pct : Dy)
    (ht : (TOKEN_ADDRESSES.lookup token).isSome) :
    StepTotal (approveStep token spender pct) := by
  intro env res st hc hok
  have hsome : (st.cache token).isSome := by rw [hok]; exact ht
  obtain ⟨b, hb⟩ := Option.isSome_iff_exists.mp hsome
  unfold approveStep
  rw [hb]
  dsimp only
  split
  · obtain ⟨v, st1, ha, hac, har⟩ :=
      approve_ok_of_confirms env token spender (pyIntTimesFloat b pct) st ht hc
    rw [ha]
    have hok1 : CacheOK st1 := by intro u; rw [hac]; exact hok u
    cases v with
    | none => exact ⟨res, st1, rfl, hok1⟩
    | some r => exact ⟨_, st1, rfl, hok1⟩
  · exact ⟨res, st, rfl, hok⟩

lemma approveStep_good (token spender : String) (pct : Dy) :
    StepGood (approveStep token spender pct) := by
  intro env res st res' st' h hgood
  unfold approveStep at h
  cases hb : st.cache token with
  | none => rw [hb] at h; cases h
  | some b =>
    rw [hb] at h
    dsimp only at h
    split at h
    · cases ha : approve_token env token spender (pyIntTimesFloat b pct) st with
      | err e st1 => rw [ha] at h; cases h
      | ok v st1 =>
        rw [ha] at h
        cases v with
        | none =>
          injection h with h1 h2
          subst h1
          exact hgood
        | some r =>
          injection h with h1 h2
          subst h1
          refine ⟨?_, hgood.2.1, hgood.2.2⟩
          intro e he
          rcases List.mem_append.mp he with he' | he'
          · exact hgood.1 e he'
          · rw [List.mem_singleton.mp he']
            exact approve_some_confirmed env token spender _ st st1 r ha
    · injection h with h1 h2
      subst h1
      exact hgood

lemma stakeStep_total (token : String) (pct : Dy)
    (ht : (TOKEN_ADDRESSES.lookup token).isSome) :
    StepTotal (stakeStep token pct) := by
  intro env res st hc hok
  have hsome : (st.cache token).isSome := by rw [hok]; exact ht
  obtain ⟨b, hb⟩ := Option.isSome_iff_exists.mp hsome
  unfold stakeStep
  rw [hb]
  dsimp only
  split
  · obtain ⟨v, st1, ha, hac, har⟩ :=
      stake_ok_of_confirms env token (pyIntTimesFloat b pct) st ht hc
    rw [ha]
    have hok1 : CacheOK st1 := by intro u; rw [hac]; exact hok u
    cases v with
    | none => exact ⟨res, st1, rfl, hok1⟩
    | some r => exact ⟨_, st1, rfl, hok1⟩
  · exact ⟨res, st, rfl, hok⟩

lemma stakeStep_good (token : String) (pct : Dy) :
    StepGood (stakeStep token pct) := by
  intro env res st res' st' h hgood
  unfold stakeStep at h
  cases hb : st.cache token with
  | none => rw [hb] at h; cases h
  | some b =>
    rw [hb] at h
    dsimp only at h
    split at h
    · cases ha : stake_token env token (pyIntTimesFloat b pct) st with
      | err e st1 => rw [ha] at h; cases h
      | ok v st1 =>
        rw [ha] at h
        cases v with
        | none =>
          injection h with h1 h2
          subst h1
          exact hgood
        | some r =>
          injection h with h1 h2
          subst h1
          refine ⟨hgood.1, hgood.2.1, ?_⟩
          intro e he
          rcases List.mem_append.mp he with he' | he'
          · exact hgood.2.2 e he'
          · rw [List.mem_singleton.mp he']
            exact stake_some_confirmed env token _ st st1 r ha
    · injection h with h1 h2
      subst h1
      exact hgood

lemma swapStep_total (ft tt : String) (pct : Dy)
    (ht : (TOKEN_ADDRESSES.lookup ft).isSome) :
    StepTotal (swapStep ft tt pct) := by
  intro env res st hc hok
  have hsome : (st.cache ft).isSome := by rw [hok]; exact ht
  obtain ⟨b, hb⟩ := Option.isSome_iff_exists.mp hsome
  unfold swapStep
  rw [hb]
  dsimp only
  split
  · obtain ⟨v, st1, ha, hac, har⟩ :=
      swap_ok_of_confirms env ft tt (pyIntTimesFloat b pct) st ht hc
    rw [ha]
    have hok1 : CacheOK st1 := by intro u; rw [hac]; exact hok u
    cases v with
    | none => exact ⟨res, st1, rfl, hok1⟩
    | some r => exact ⟨_, st1, rfl, hok1⟩
  · exact ⟨res, st, rfl, hok⟩

lemma swapStep_good (ft tt : String) (pct : Dy) :
    StepGood (swapStep ft tt pct) := by
  intro env res st res' st' h hgood
  unfold swapStep at h
  cases hb : st.cache ft with
  | none => rw [hb] at h; cases h
  | some b =>
    rw [hb] at h
    dsimp only at h
    split at h
    · cases ha : swap_token env ft tt (pyIntTimesFloat b pct) st with
      | err e st1 => rw [ha] at h; cases h
      | ok v st1 =>
        rw [ha] at h
        cases v with
        | none =>
          injection h with h1 h2
          subst h1
          exact hgood
        | some r =>
          injection h with h1 h2
          subst h1
          refine ⟨hgood.1, ?_, hgood.2.2⟩
          intro e he
          rcases List.mem_append.mp he with he' | he'
          · exact hgood.2.1 e he'
          · rw [List.mem_singleton.mp he']
            exact swap_some_confirmed env ft tt _ st st1 r ha
    · injection h with h1 h2
      subst h1
      exact hgood

lemma poolStakeStep_total (pool : String) : StepTotal (poolStakeStep pool) := by
  intro env res st hc hok
  have hsome : (st.cache "ATH").isSome := by rw [hok]; decide
  obtain ⟨b, hb⟩ := Option.isSome_iff_exists.mp hsome
  unfold poolStakeStep
  rw [hb]
  dsimp only
  split
  · obtain ⟨v, st1, ha, hac, har⟩ :=
      approve_ok_of_confirms env "ATH" pool (pyIntTimesFloat b float_0_1) st (by decide) hc
    rw [ha]
    dsimp only
    obtain ⟨r, hr⟩ := send_ok_of_confirms env ⟨pool, "stake", [.num (pyIntTimesFloat b float_0_1)]⟩ st1 (hc _)
    rw [hr]
    refine ⟨_, _, rfl, ?_⟩
    intro u
    show ((st1.cache : String → Option Nat) u).isSome = _
    rw [hac]
    exact hok u
  · exact ⟨res, st, rfl, hok⟩

lemma poolStakeStep_good (pool : String) : StepGood (poolStakeStep pool) := by
  intro env res st res' st' h hgood
  unfold poolStakeStep at h
  cases hb : st.cache "ATH" with
  | none => rw [hb] at h; cases h
  | some b =>
    rw [hb] at h
    dsimp only at h
    split at h
    · cases ha : approve_token env "ATH" pool (pyIntTimesFloat b float_0_1) st with
      | err e st1 => rw [ha] at h; cases h
      | ok v st1 =>
        rw [ha] at h
        dsimp only at h
        cases hs : send_transaction env ⟨pool, "stake", [.num (pyIntTimesFloat b float_0_1)]⟩ st1 with
        | err e st2 => rw [hs] at h; cases h
        | ok r st2 =>
          rw [hs] at h
          injection h with h1 h2
          subst h1
          refine ⟨hgood.1, hgood.2.1, ?_⟩
          intro e he
          rcases List.mem_append.mp he with he' | he'
          · exact hgood.2.2 e he'
          · rw [List.mem_singleton.mp he']
            exact (send_ok_confirmed env _ st1 r st2 hs).1
    · injection h with h1 h2
      subst h1
      exact hgood

lemma refreshStep_total : StepTotal refreshStep := by
  intro env res st hc hok
  exact ⟨res, update_all_balances env st, rfl, update_cacheOK env st⟩

lemma refreshStep_good : StepGood refreshStep := by
  intro env res st res' st' h hgood
  unfold refreshStep at h
  injection h with h1 h2
  subst h1
  exact hgood

lemma maitrixSteps_total : ∀ f ∈ maitrixSteps, StepTotal f := by
  intro f hf
  simp only [maitrixSteps, List.mem_cons, List.not_mem_nil, or_false] at hf
  rcases hf with rfl | rfl | rfl | rfl | rfl | rfl | rfl | rfl | rfl | rfl | rfl | rfl | rfl
  · exact approveStep_total _ _ _ (by decide)
  · exact stakeStep_total _ _ (by decide)
  · exact swapStep_total _ _ _ (by decide)
  · exact refreshStep_total
  · exact swapStep_total _ _ _ (by decide)
  · exact refreshStep_total
  · exact stakeStep_total _ _ (by decide)
  · exact stakeStep_total _ _ (by decide)
  · exact poolStakeStep_total _
  · exact poolStakeStep_total _
  · exact approveStep_total _ _ _ (by decide)
  · exact poolStakeStep_total _
  · exact refreshStep_total

lemma maitrixSteps_good : ∀ f ∈ maitrixSteps, StepGood f := by
  intro f hf
  simp only [maitrixSteps, List.mem_cons, List.not_mem_nil, or_false] at hf
  rcases hf with rfl | rfl | rfl | rfl | rfl | rfl | rfl | rfl | rfl | rfl | rfl | rfl | rfl
  · exact approveStep_good _ _ _
  · exact stakeStep_good _ _
  · exact swapStep_good _ _ _
  · exact refreshStep_good
  · exact swapStep_good _ _ _
  · exact refreshStep_good
  · exact stakeStep_good _ _
  · exact stakeStep_good _ _
  · exact poolStakeStep_good _
  · exact poolStakeStep_good _
  · exact approveStep_good _ _ _
  · exact poolStakeStep_good _
  · exact refreshStep_good

lemma runSteps_total (env : Env) (hc : AllConfirm env) :
    ∀ fs, (∀ f ∈ fs, StepTotal f) → ∀ res st, CacheOK st →
      ∃ res' st', runSteps env fs res st = .ok res' st' := by
  intro fs
  induction fs with
  | nil => exact fun _ res st _ => ⟨res, st, rfl⟩
  | cons f fs ih =>
    intro htot res st hok
    obtain ⟨res1, st1, hf, hok1⟩ :=
      htot f (List.mem_cons_self _ _) env res st hc hok
    obtain ⟨res', st', hrec⟩ :=
      ih (fun g hg => htot g (List.mem_cons_of_mem _ hg)) res1 st1 hok1
    refine ⟨res', st', ?_⟩
    unfold runSteps
    rw [hf]
    exact hrec

lemma runSteps_good (env : Env) :
    ∀ fs, (∀ f ∈ fs, StepGood f) → ∀ res st res' st',
      runSteps env fs res st = .ok res' st' → GoodRes env res → GoodRes env res' := by
  intro fs
  induction fs with
  | nil =>
    intro _ res st res' st' h hgood
    unfold runSteps at h
    injection h with h1 h2
    subst h1
    exact hgood
  | cons f fs ih =>
    intro hg res st res' st' h hgood
    unfold runSteps at h
    cases hf : f env res st with
    | err e st1 => rw [hf] at h; cases h
    | ok res1 st1 =>
      rw [hf] at h
      exact ih (fun g hgm => hg g (List.mem_cons_of_mem _ hgm)) res1 st1 res' st' h
        (hg f (List.mem_cons_self _ _) env res st res1 st1 hf hgood)

lemma maitrix_ok (env : Env) (st : BotState) (hc : AllConfirm env) :
    ∃ res st', run_maitrix_sequence env st = .ok res st' := by
  unfold run_maitrix_sequence
  exact runSteps_total env hc maitrixSteps maitrixSteps_total ⟨[], [], []⟩
    (update_all_balances env st) (update_cacheOK env st)

lemma maitrix_good (env : Env) (st : BotState) (res : MaitrixResults)
    (st' : BotState) (h : run_maitrix_sequence env st = .ok res st') :
    GoodRes env res := by
  unfold run_maitrix_sequence at h
  refine runSteps_good env maitrixSteps maitrixSteps_good ⟨[], [], []⟩
    (update_all_balances env st) res st' h ?_
  refine ⟨?_, ?_, ?_⟩ <;> intro e he <;> cases he

lemma auto_keyError (env : Env) (st : BotState) (hc : AllConfirm env) :
    ∃ st', run_auto_cycle env st = .err .keyError st' := by
  unfold run_auto_cycle
  have hok1 := update_cacheOK env st
  obtain ⟨mints, st2, hm, hmc, hmr⟩ :=
    mintPhase_ok env hc (TOKEN_ADDRESSES.map Prod.fst) [] (update_all_balances env st)
      hok1 (by decide)
  rw [hm]
  dsimp only
  have hok2 : CacheOK st2 := by intro u; rw [hmc]; exact hok1 u
  have hok3 := update_cacheOK env st2
  obtain ⟨swaps, st4, hs, hsc, hsr⟩ :=
    swapPhase_ok env hc SWAP_PAIRS [] (update_all_balances env st2) hok3 (by decide)
  rw [hs]
  dsimp only
  have hok4 : CacheOK st4 := by intro u; rw [hsc]; exact hok3 u
  have hok5 := update_cacheOK env st4
  obtain ⟨st6, hk⟩ :=
    stakePhase_keyError env hc [] (update_all_balances env st4) hok5
  rw [hk]
  exact ⟨st6, rfl⟩

/-! ## Helper lemmas for the approve paths of individual steps -/

lemma approve_le_skip (env : Env) (token tokenAddr spender : String) (amount : Nat)
    (st : BotState) (h : TOKEN_ADDRESSES.lookup token = some tokenAddr)
    (hle : amount ≤ env.allowance st.allowReads token spender) :
    approve_token env token spender amount st =
      .ok none { st with allowReads := st.allowReads + 1 } := by
  unfold approve_token
  rw [h]
  dsimp only
  rw [if_pos hle]

lemma approve_lt_sends (env : Env) (token tokenAddr spender : String) (amount : Nat)
    (st : BotState) (h : TOKEN_ADDRESSES.lookup token = some tokenAddr)
    (hlt : env.allowance st.allowReads token spender < amount) :
    (approve_token env token spender amount st).finalState.sent =
      st.sent ++ [⟨tokenAddr, "approve", [.addr spender, .num amount]⟩] := by
  unfold approve_token
  rw [h]
  dsimp only
  rw [if_neg (by omega)]
  have hfs := send_finalState env ⟨tokenAddr, "approve", [.addr spender, .num amount]⟩
    { st with allowReads := st.allowReads + 1 }
  cases hs : send_transaction env ⟨tokenAddr, "approve", [.addr spender, .num amount]⟩
      { st with allowReads := st.allowReads + 1 } with
  | ok r st'' =>
    rw [hs] at hfs
    dsimp only [StepResult.finalState] at hfs ⊢
    rw [hfs]
  | err e st'' =>
    rw [hs] at hfs
    dsimp only [StepResult.finalState] at hfs ⊢
    rw [hfs]

lemma approveStep_finalState_pos (token spender : String) (pct : Dy) (env : Env)
    (res : MaitrixResults) (st : BotState) (b : Nat)
    (hb : st.cache token = some b) (hpos : 0 < pyIntTimesFloat b pct) :
    (approveStep token spender pct env res st).finalState =
      (approve_token env token spender (pyIntTimesFloat b pct) st).finalState := by
  unfold approveStep
  rw [hb]
  dsimp only
  rw [if_pos hpos]
  cases ha : approve_token env token spender (pyIntTimesFloat b pct) st with
  | err e st1 => rfl
  | ok v st1 => cases v <;> rfl

/-! ## Concrete scenario environments and states -/

/-- The state a fresh MaitrixBot starts from, before its first
update_all_balances: empty cache, nothing sent. -/
def st0 : BotState := ⟨0, 0, 0, [], fun _ => none⟩

/-- All balances zero, all allowances zero, and every submitted transaction
immediately yields a receipt with status 0: the very first transaction the
bot sends reverts. -/
def envRevert : Env := ⟨fun _ _ => 0, fun _ _ _ => 0, fun _ _ => .mined 0 0 0⟩

/-- All balances zero, all allowances zero, every submitted transaction
confirms at its first poll (status 1, depth 10 ≥ TX_CONFIRMATIONS). -/
def envConfirm : Env := ⟨fun _ _ => 0, fun _ _ _ => 0, fun _ _ => .mined 1 0 10⟩

/-- The auto-cycle scenario of the spec: at the mint-phase snapshot (round
0) ATH has balance 0 and all other tokens sit at their 10^18 minimum; at
the swap-phase snapshot (round 1) ATH has 100 * 10^18 and VANA 0; at the
stake-phase snapshot (round 2) AUSD has 60 * 10^18 - different from its
pre-swap balance - and VUSD 0.  Allowances are zero, every transaction
confirms. -/
def envC4 : Env :=
  ⟨fun r t =>
      if r = 0 then (if t = "ATH" then 0 else 10 ^ 18)
      else if r = 1 then (if t = "ATH" then 100 * 10 ^ 18 else if t = "VANA" then 0 else 10 ^ 18)
      else if r = 2 then (if t = "AUSD" then 60 * 10 ^ 18 else 0)
      else 0,
    fun _ _ _ => 0,
    fun _ _ => .mined 1 0 10⟩

/-- AUSD has balance 2 at the first snapshot and everything else is zero;
allowances zero, every transaction confirms.  The sequence then stakes
amount 1 of AUSD: approve is transaction 0, stake is transaction 1. -/
def envC7 : Env :=
  ⟨fun r t => if r = 0 ∧ t = "AUSD" then 2 else 0, fun _ _ _ => 0, fun _ _ => .mined 1 0 10⟩

/-- VANAUSD has balance 1 wei at every snapshot and everything else is
zero; allowances zero, every transaction confirms. -/
def envC9 : Env :=
  ⟨fun _ t => if t = "VANAUSD" then 1 else 0, fun _ _ _ => 0, fun _ _ => .mined 1 0 10⟩

/-- Allowance 10 for every (token, spender) pair; balances zero; every
transaction confirms. -/
def envAllow : Env := ⟨fun _ _ => 0, fun _ _ _ => 10, fun _ _ => .mined 1 0 10⟩

/-- A cache holding only VANA with balance 10 * 10^18. -/
def stVana : BotState :=
  ⟨0, 0, 0, [], fun t => if t = "VANA" then some (10 * 10 ^ 18) else none⟩

/-- A cache holding only VANA with balance 0. -/
def stVanaZero : BotState :=
  ⟨0, 0, 0, [], fun t => if t = "VANA" then some 0 else none⟩

/-- A cache holding only VANAUSD with balance 2. -/
def stVanausd : BotState :=
  ⟨0, 0, 0, [], fun t => if t = "VANAUSD" then some 2 else none⟩

/-! ## The claims -/

/-- C1 counterexample.  The claim says a reverted transaction is recorded
but does not abort the playbook, with every later step still running.  In
the environment envRevert every balance is 0, so the auto-cycle's first
step mints ATH; that transaction reverts, the ValueError escapes
run_auto_cycle, and the playbook aborts having sent only that one
transaction - none of the later mint, swap or stake steps runs. -/
theorem C1_counterexample :
    (run_auto_cycle envRevert st0).failure? = some Failure.reverted ∧
    (run_auto_cycle envRevert st0).finalState.sent.length = 1 := by
  decide

/-- C1 (amended): a step failure signalled by a None return value (unknown
token, missing route or pool, allowance already sufficient) is skipped and
the playbook proceeds, so the scripted sequence runs to completion whenever
every submitted transaction confirms; but a failure raised as an exception
(reverted or timed-out transaction, missing dict key) aborts the playbook
at that step.  In particular the auto-cycle never completes: even when
every transaction confirms, its staking loop reaches the POOL1 key, which
token_balances lacks, and aborts with a KeyError. -/
theorem C1_amended :
    (∀ env st, AllConfirm env → ∃ res st', run_maitrix_sequence env st = .ok res st') ∧
    (∀ env st, AllConfirm env → ∃ st', run_auto_cycle env st = .err .keyError st') :=
  ⟨fun env st hc => maitrix_ok env st hc, fun env st hc => auto_keyError env st hc⟩

/-- C1 witness: the amended claim at the concrete always-confirming
environment. -/
theorem C1_witness :
    (∃ res st', run_maitrix_sequence envConfirm st0 = .ok res st') ∧
    (∃ st', run_auto_cycle envConfirm st0 = .err .keyError st') := by
  have hc : AllConfirm envConfirm := fun i => ⟨1, 0, 10, rfl⟩
  exact ⟨C1_amended.1 envConfirm st0 hc, C1_amended.2 envConfirm st0 hc⟩

/-- C2: the confirmation tracker, with its configured TX_TIMEOUT = 300
seconds: (a) it returns a receipt only when the receipt status is nonzero
and currentBlock - blockNumber ≥ TX_CONFIRMATIONS; (b) at any poll that
observes a status-0 receipt before the timeout it raises the revert error
immediately; (c) once elapsed wall-clock time exceeds the 300-second
window, the next poll raises the timeout error unconditionally; (d) it
never times out early - a timeout outcome with elapsed still within the
window comes only from a later poll, past a non-terminal observation; and
(e) on a poll stream that never reaches a terminal state
wait_for_transaction raises the timeout error, never returning success. -/
theorem C2_confirmation_tracker :
    TX_TIMEOUT = 300 ∧
    (∀ polls fuel elapsed idx s bn cb,
      waitLoop TX_TIMEOUT TX_CONFIRMATIONS polls fuel elapsed idx =
        some (.confirmed s bn cb) → s ≠ 0 ∧ TX_CONFIRMATIONS ≤ cb - bn) ∧
    (∀ polls fuel elapsed idx bn cb, elapsed ≤ TX_TIMEOUT →
      polls idx = .mined 0 bn cb →
      waitLoop TX_TIMEOUT TX_CONFIRMATIONS polls (fuel + 1) elapsed idx = some .reverted) ∧
    (∀ polls fuel elapsed idx, TX_TIMEOUT < elapsed →
      waitLoop TX_TIMEOUT TX_CONFIRMATIONS polls fuel elapsed idx = some .timedOut) ∧
    (∀ polls fuel elapsed idx, elapsed ≤ TX_TIMEOUT →
      waitLoop TX_TIMEOUT TX_CONFIRMATIONS polls (fuel + 1) elapsed idx = some .timedOut →
      NonTerminal TX_CONFIRMATIONS (polls idx) ∧
      waitLoop TX_TIMEOUT TX_CONFIRMATIONS polls fuel
        (elapsed + sleepAfter (polls idx)) (idx + 1) = some .timedOut) ∧
    (∀ polls, (∀ j, NonTerminal TX_CONFIRMATIONS (polls j)) →
      wait_for_transaction polls TX_CONFIRMATIONS = .timedOut) := by
  refine ⟨rfl, waitLoop_confirmed TX_TIMEOUT TX_CONFIRMATIONS, ?_, ?_, ?_, ?_⟩
  · intro polls fuel elapsed idx bn cb ht hp
    simp only [waitLoop]
    rw [if_neg (by omega), hp]
    dsimp only
    rw [if_pos rfl]
  · exact fun polls fuel elapsed idx h =>
      waitLoop_timeout_now TX_TIMEOUT TX_CONFIRMATIONS polls fuel elapsed idx h
  · intro polls fuel elapsed idx ht h
    simp only [waitLoop] at h
    rw [if_neg (by omega)] at h
    cases hp : polls idx with
    | noReceipt =>
      rw [hp] at h
      exact ⟨trivial, h⟩
    | notFound =>
      rw [hp] at h
      exact ⟨trivial, h⟩
    | mined s bn cb =>
      rw [hp] at h
      dsimp only at h
      split at h
      · cases h
      · split at h
        · cases h
        · rename_i hs hcf
          exact ⟨⟨hs, by omega⟩, h⟩
  · exact fun polls hnt => wait_allNonTerminal_timedOut polls TX_CONFIRMATIONS hnt

/-- C2 witness: each part of the tracker theorem at a concrete input: a
confirming stream, a stream whose first receipt has status 0, a poll past
the window, a non-terminal poll inside the window, and an all-noReceipt
stream. -/
theorem C2_witness :
    ((1 : Nat) ≠ 0 ∧ TX_CONFIRMATIONS ≤ (10 : Int) - 0) ∧
    waitLoop TX_TIMEOUT TX_CONFIRMATIONS (fun _ => Poll.mined 0 0 0) (4 + 1) 0 0 =
      some WaitOutcome.reverted ∧
    waitLoop TX_TIMEOUT TX_CONFIRMATIONS (fun _ => Poll.noReceipt) 3 301 0 =
      some WaitOutcome.timedOut ∧
    (NonTerminal TX_CONFIRMATIONS ((fun _ => Poll.noReceipt) 0) ∧
      waitLoop TX_TIMEOUT TX_CONFIRMATIONS (fun _ => Poll.noReceipt) 150
        (299 + sleepAfter ((fun _ => Poll.noReceipt) 0)) 1 = some WaitOutcome.timedOut) ∧
    wait_for_transaction (fun _ => Poll.noReceipt) TX_CONFIRMATIONS = WaitOutcome.timedOut := by
  refine ⟨?_, ?_, ?_, ?_, ?_⟩
  · exact C2_confirmation_tracker.2.1 (fun _ => Poll.mined 1 0 10) 151 0 0 1 0 10 (by decide)
  · exact C2_confirmation_tracker.2.2.1 (fun _ => Poll.mined 0 0 0) 4 0 0 0 0 (by decide) rfl
  · exact C2_confirmation_tracker.2.2.2.1 (fun _ => Poll.noReceipt) 3 301 0 (by decide)
  · exact C2_confirmation_tracker.2.2.2.2.1 (fun _ => Poll.noReceipt) 150 299 0 (by decide) (by decide)
  · exact C2_confirmation_tracker.2.2.2.2.2 (fun _ => Poll.noReceipt) (fun j => trivial)

/-- C8 counterexample.  The claim says the loop sleeps 2 seconds per poll
while the transaction is unmined (no receipt available yet).  But an
unmined transaction signalled by a TransactionNotFound exception sleeps 5
seconds: starting 4 seconds before the timeout boundary, two noReceipt
polls fit inside the window (the loop is still running after them), while
a single notFound poll already crosses it. -/
theorem C8_counterexample :
    Unmined Poll.notFound = true ∧ sleepAfter Poll.notFound ≠ 2 ∧
    waitLoop TX_TIMEOUT TX_CONFIRMATIONS (fun _ => Poll.notFound) 2 296 0 =
      some WaitOutcome.timedOut ∧
    waitLoop TX_TIMEOUT TX_CONFIRMATIONS (fun _ => Poll.noReceipt) 2 296 0 = none := by
  decide

/-- C8 (amended): the polling loop uses a fixed, non-exponential backoff,
but the unmined case splits in two: 2 seconds when the receipt query
returns None, 5 seconds when it raises TransactionNotFound, and 5 seconds
while a mined transaction awaits confirmation depth; each non-terminal
poll within the window advances the loop by exactly that sleep. -/
theorem C8_amended :
    sleepAfter Poll.noReceipt = 2 ∧ sleepAfter Poll.notFound = 5 ∧
    (∀ s bn cb, sleepAfter (Poll.mined s bn cb) = 5) ∧
    (∀ polls fuel elapsed idx, elapsed ≤ TX_TIMEOUT →
      NonTerminal TX_CONFIRMATIONS (polls idx) →
      waitLoop TX_TIMEOUT TX_CONFIRMATIONS polls (fuel + 1) elapsed idx =
        waitLoop TX_TIMEOUT TX_CONFIRMATIONS polls fuel
          (elapsed + sleepAfter (polls idx)) (idx + 1)) := by
  refine ⟨rfl, rfl, fun s bn cb => rfl, ?_⟩
  intro polls fuel elapsed idx ht hnt
  exact waitLoop_step TX_TIMEOUT TX_CONFIRMATIONS polls fuel elapsed idx ht hnt

/-- C8 witness: the amended stepping law at a concrete noReceipt poll. -/
theorem C8_witness :
    waitLoop TX_TIMEOUT TX_CONFIRMATIONS (fun _ => Poll.noReceipt) (150 + 1) 0 0 =
      waitLoop TX_TIMEOUT TX_CONFIRMATIONS (fun _ => Poll.noReceipt) 150
        (0 + sleepAfter Poll.noReceipt) 1 :=
  C8_amended.2.2.2 (fun _ => Poll.noReceipt) 150 0 0 (by decide) (by decide)

/-- C3: for every known token, spender and requested amount: if the
current on-chain allowance already covers the amount, approve_token issues
zero transactions and returns the no-op None (only the allowance-read
counter advances); if the allowance is below the amount, exactly one
approve transaction is broadcast, encoding exactly the requested amount
for that spender. -/
theorem C3_approve_token (env : Env) (token tokenAddr spender : String)
    (amount : Nat) (st : BotState)
    (h : TOKEN_ADDRESSES.lookup token = some tokenAddr) :
    (amount ≤ env.allowance st.allowReads token spender →
      approve_token env token spender amount st =
        .ok none { st with allowReads := st.allowReads + 1 }) ∧
    (env.allowance st.allowReads token spender < amount →
      (approve_token env token spender amount st).finalState.sent =
        st.sent ++ [⟨tokenAddr, "approve", [.addr spender, .num amount]⟩]) :=
  ⟨fun hle => approve_le_skip env token tokenAddr spender amount st h hle,
   fun hlt => approve_lt_sends env token tokenAddr spender amount st h hlt⟩

/-- C3 witness: with allowance 10, requesting 5 is a no-op with nothing
sent, and requesting 20 broadcasts one approve transaction encoding 20. -/
theorem C3_witness :
    approve_token envAllow "ATH" "0xspender1" 5 st0 = .ok none { st0 with allowReads := 1 } ∧
    (approve_token envAllow "ATH" "0xspender1" 20 st0).finalState.sent =
      [⟨"0x1428444eacdc0fd115dd4318fce65b61cd1ef399", "approve",
        [.addr "0xspender1", .num 20]⟩] := by
  constructor
  · exact (C3_approve_token envAllow "ATH" "0x1428444eacdc0fd115dd4318fce65b61cd1ef399"
      "0xspender1" 5 st0 (by decide)).1 (by decide)
  · have h := (C3_approve_token envAllow "ATH" "0x1428444eacdc0fd115dd4318fce65b61cd1ef399"
      "0xspender1" 20 st0 (by decide)).2 (by decide)
    simpa using h

/-- C4: the auto-cycle amount computations, on the spec's scenario
environment envC4.  The run submits exactly: a mint of 2 * 10^18 ATH (the
token with balance 0 and minimum 10^18 mints double the minimum); an
approve and a swapATHtoAUSD of exactly 30 * 10^18 (int(100 * 10^18 * 0.3),
30% of the 100 * 10^18 swap-round balance); and an approve and a stake of
exactly 30 * 10^18 AUSD, which is 50% of the post-swap refreshed AUSD
balance (60 * 10^18 at round 2) and differs from 50% of the pre-swap
balance (10^18 at round 1). -/
theorem C4_auto_cycle_amounts :
    (run_auto_cycle envC4 st0).finalState.sent =
      [⟨"0x1428444eacdc0fd115dd4318fce65b61cd1ef399", "mint", [.num (2 * 10 ^ 18)]⟩,
       ⟨"0x1428444eacdc0fd115dd4318fce65b61cd1ef399", "approve",
        [.addr "0x2cFDeE1d5f04dD235AEA47E1aD2fB66e3A61C13e", .num (30 * 10 ^ 18)]⟩,
       ⟨"0x2cFDeE1d5f04dD235AEA47E1aD2fB66e3A61C13e", "swapATHtoAUSD", [.num (30 * 10 ^ 18)]⟩,
       ⟨"0x78de28aabbd5198657b26a8dc9777f441551b477", "approve",
        [.addr "0x054de909723ECda2d119E31583D40a52a332f85c", .num (30 * 10 ^ 18)]⟩,
       ⟨"0x054de909723ECda2d119E31583D40a52a332f85c", "stake", [.num (30 * 10 ^ 18)]⟩] ∧
    pyIntTimesFloat (envC4.balance 1 "ATH") SWAP_PERCENTAGE = 30 * 10 ^ 18 ∧
    pyIntTimesFloat (envC4.balance 2 "AUSD") STAKE_PERCENTAGE = 30 * 10 ^ 18 ∧
    pyIntTimesFloat (envC4.balance 1 "AUSD") STAKE_PERCENTAGE ≠ 30 * 10 ^ 18 := by
  decide

/-- C5: scripted-sequence step 1.  int(float(10 * 10^18) * 0.4) is exactly
4 * 10^18; with a VANA balance of 10 * 10^18 and allowance below that
amount, step 1 broadcasts exactly one approve of 4 * 10^18 VANA for the
configured VANA_TO_VANAUSD router; and with a VANA balance of 0 the step
is skipped entirely: no report entry, no transaction, state unchanged. -/
theorem C5_sequence_step1 :
    pyIntTimesFloat (10 * 10 ^ 18) float_0_4 = 4 * 10 ^ 18 ∧
    (∀ env res st, st.cache "VANA" = some (10 * 10 ^ 18) →
      env.allowance st.allowReads "VANA"
        ((SWAP_ADDRESSES.lookup "VANA_TO_VANAUSD").getD "") < 4 * 10 ^ 18 →
      (step1 env res st).finalState.sent = st.sent ++
        [⟨(TOKEN_ADDRESSES.lookup "VANA").getD "", "approve",
          [.addr ((SWAP_ADDRESSES.lookup "VANA_TO_VANAUSD").getD ""),
           .num (4 * 10 ^ 18)]⟩]) ∧
    (∀ env res st, st.cache "VANA" = some 0 → step1 env res st = .ok res st) := by
  have hA : pyIntTimesFloat (10 * 10 ^ 18) float_0_4 = 4 * 10 ^ 18 := by decide
  refine ⟨hA, ?_, ?_⟩
  · intro env res st hb hlt
    have hfs := approveStep_finalState_pos "VANA"
      ((SWAP_ADDRESSES.lookup "VANA_TO_VANAUSD").getD "") float_0_4 env res st
      (10 * 10 ^ 18) hb (by rw [hA]; decide)
    show (approveStep "VANA" ((SWAP_ADDRESSES.lookup "VANA_TO_VANAUSD").getD "")
        float_0_4 env res st).finalState.sent = _
    rw [hfs, hA]
    exact approve_lt_sends env "VANA" ((TOKEN_ADDRESSES.lookup "VANA").getD "")
      ((SWAP_ADDRESSES.lookup "VANA_TO_VANAUSD").getD "") (4 * 10 ^ 18) st (by decide) hlt
  · intro env res st hb
    show approveStep "VANA" ((SWAP_ADDRESSES.lookup "VANA_TO_VANAUSD").getD "")
        float_0_4 env res st = .ok res st
    unfold approveStep
    rw [hb]
    dsimp only
    rw [if_neg (by decide)]

/-- C5 witness: step 1 at a concrete state with VANA balance 10 * 10^18
(one approve of 4 * 10^18 sent) and at one with VANA balance 0 (the step
returns the state untouched). -/
theorem C5_witness :
    (step1 envConfirm ⟨[], [], []⟩ stVana).finalState.sent =
      [⟨(TOKEN_ADDRESSES.lookup "VANA").getD "", "approve",
        [.addr ((SWAP_ADDRESSES.lookup "VANA_TO_VANAUSD").getD ""), .num (4 * 10 ^ 18)]⟩] ∧
    step1 envConfirm ⟨[], [], []⟩ stVanaZero = .ok ⟨[], [], []⟩ stVanaZero := by
  constructor
  · have h := C5_sequence_step1.2.1 envConfirm ⟨[], [], []⟩ stVana (by decide) (by decide)
    simpa using h
  · exact C5_sequence_step1.2.2 envConfirm ⟨[], [], []⟩ stVanaZero (by decide)

/-- C6: the unsupported-operation failures, each signalled by a None
return value to the caller with no transaction broadcast and no state
change (these are the returns the spec names UnsupportedOperationError,
NoRouteError and NoPoolError): a mint on a token contract whose interface
lacks a mint function returns None; a swap whose pair key is not in
SWAP_ADDRESSES returns None; a stake on a token with no configured pool in
STAKING_ADDRESSES returns None. -/
theorem C6_unsupported_operations :
    (∀ abi env token tokenAddr amount st, TOKEN_ADDRESSES.lookup token = some tokenAddr →
      "mint" ∉ abi → mint_token_with_abi abi env token amount st = .ok none st) ∧
    (∀ env ft tt amount st, SWAP_ADDRESSES.lookup (ft ++ "_TO_" ++ tt) = none →
      swap_token env ft tt amount st = .ok none st) ∧
    (∀ env token amount st, STAKING_ADDRESSES.lookup token = none →
      stake_token env token amount st = .ok none st) := by
  refine ⟨?_, ?_, ?_⟩
  · intro abi env token tokenAddr amount st h hmem
    unfold mint_token_with_abi
    rw [h]
    dsimp only
    rw [if_neg hmem]
  · intro env ft tt amount st h
    unfold swap_token swap_token_with
    rw [h]
  · intro env token amount st h
    unfold stake_token
    rw [h]

/-- C6 witness: minting ATH through an empty interface, swapping the
unconfigured USDe to VUSD pair, and staking ATH (which has no pool) all
return None without touching the state. -/
theorem C6_witness :
    mint_token_with_abi [] envConfirm "ATH" 5 st0 = .ok none st0 ∧
    swap_token envConfirm "USDe" "VUSD" 5 st0 = .ok none st0 ∧
    stake_token envConfirm "ATH" 5 st0 = .ok none st0 := by
  refine ⟨?_, ?_, ?_⟩
  · exact C6_unsupported_operations.1 [] envConfirm "ATH"
      "0x1428444eacdc0fd115dd4318fce65b61cd1ef399" 5 st0 (by decide) (by decide)
  · exact C6_unsupported_operations.2.1 envConfirm "USDe" "VUSD" 5 st0 (by decide)
  · exact C6_unsupported_operations.2.2 envConfirm "ATH" 5 st0 (by decide)

/-- C7: a report entry is appended only for a transaction whose
confirmation wait ended in a mined receipt with nonzero status at the
required confirmation depth.  For each auto-cycle phase loop, every entry
of the returned report that was not already in the accumulator refers to
such a confirmed transaction; and every entry of a completed
run_maitrix_sequence report does.  Skipped steps return None and append
nothing; reverted and timed-out transactions raise, so the branch that
appends is never reached for them. -/
theorem C7_report_confirmed_only :
    (∀ env tokens acc st res st', mintPhase env tokens acc st = .ok res st' →
      ∀ e ∈ res, e ∈ acc ∨ ConfirmedTx env e.txHash) ∧
    (∀ env pairs acc st res st', swapPhase env pairs acc st = .ok res st' →
      ∀ e ∈ res, e ∈ acc ∨ ConfirmedTx env e.txHash) ∧
    (∀ env tokens acc st res st', stakePhase env tokens acc st = .ok res st' →
      ∀ e ∈ res, e ∈ acc ∨ ConfirmedTx env e.txHash) ∧
    (∀ env st res st', run_maitrix_sequence env st = .ok res st' →
      (∀ e ∈ res.approve, ConfirmedTx env e.txHash) ∧
      (∀ e ∈ res.swap, ConfirmedTx env e.txHash) ∧
      (∀ e ∈ res.stake, ConfirmedTx env e.txHash)) :=
  ⟨mintPhase_entries, swapPhase_entries, stakePhase_entries,
   fun env st res st' h => maitrix_good env st res st' h⟩

/-- C7 witness: in envC7 the sequence stakes amount 1 of AUSD; the stake
transaction is submission index 1 and its report entry is certified
confirmed by the claim theorem. -/
theorem C7_witness : ConfirmedTx envC7 1 := by
  have h := (C7_report_confirmed_only.2.2.2 envC7 st0
      ⟨[], [], [⟨"AUSD", "0x054de909723ECda2d119E31583D40a52a332f85c", 1, 1⟩]⟩
      ((run_maitrix_sequence envC7 st0).finalState) rfl).2.2
  exact h ⟨"AUSD", "0x054de909723ECda2d119E31583D40a52a332f85c", 1, 1⟩ (by simp)

/-- C9 counterexample.  The claim says that whenever the VANAUSD balance
is positive, step 9 issues an approve naming the VANAUSD token address as
spender.  With VANAUSD balance 1 wei (positive) the computed amount
int(float(1) * 0.5) is 0, the step is skipped, and the whole sequence
completes without issuing a single transaction or approve entry. -/
theorem C9_counterexample :
    0 < envC9.balance 0 "VANAUSD" ∧
    (run_maitrix_sequence envC9 st0).value? = some ⟨[], [], []⟩ ∧
    (run_maitrix_sequence envC9 st0).finalState.sent = [] := by
  decide

/-- C9 (amended): whenever step 9's computed amount int(float(balance) *
0.5) is positive and the current allowance is below it, the step issues an
approve whose spender is TOKEN_ADDRESSES[VANAUSD] - the VANAUSD token's
own contract address, which is none of the configured staking-pool or
swap-router addresses. -/
theorem C9_amended :
    (∀ env res st b, st.cache "VANAUSD" = some b →
      0 < pyIntTimesFloat b STAKE_PERCENTAGE →
      env.allowance st.allowReads "VANAUSD"
        ((TOKEN_ADDRESSES.lookup "VANAUSD").getD "") < pyIntTimesFloat b STAKE_PERCENTAGE →
      (step9 env res st).finalState.sent = st.sent ++
        [⟨(TOKEN_ADDRESSES.lookup "VANAUSD").getD "", "approve",
          [.addr ((TOKEN_ADDRESSES.lookup "VANAUSD").getD ""),
           .num (pyIntTimesFloat b STAKE_PERCENTAGE)]⟩]) ∧
    (∀ a ∈ STAKING_ADDRESSES.map Prod.snd,
      (TOKEN_ADDRESSES.lookup "VANAUSD").getD "" ≠ a) ∧
    (∀ a ∈ SWAP_ADDRESSES.map Prod.snd,
      (TOKEN_ADDRESSES.lookup "VANAUSD").getD "" ≠ a) := by
  refine ⟨?_, by decide, by decide⟩
  intro env res st b hb hpos hlt
  have hfs := approveStep_finalState_pos "VANAUSD"
    ((TOKEN_ADDRESSES.lookup "VANAUSD").getD "") STAKE_PERCENTAGE env res st b hb hpos
  show (approveStep "VANAUSD" ((TOKEN_ADDRESSES.lookup "VANAUSD").getD "")
      STAKE_PERCENTAGE env res st).finalState.sent = _
  rw [hfs]
  exact approve_lt_sends env "VANAUSD" ((TOKEN_ADDRESSES.lookup "VANAUSD").getD "")
    ((TOKEN_ADDRESSES.lookup "VANAUSD").getD "") (pyIntTimesFloat b STAKE_PERCENTAGE)
    st (by decide) hlt

/-- C9 witness: with VANAUSD balance 2 (amount 1) and zero allowance,
step 9 broadcasts one approve whose spender is the VANAUSD token address,
and that address differs from the AUSD staking pool. -/
theorem C9_witness :
    (step9 envConfirm ⟨[], [], []⟩ stVanausd).finalState.sent =
      [⟨(TOKEN_ADDRESSES.lookup "VANAUSD").getD "", "approve",
        [.addr ((TOKEN_ADDRESSES.lookup "VANAUSD").getD ""), .num 1]⟩] ∧
    (TOKEN_ADDRESSES.lookup "VANAUSD").getD "" ≠
      "0x054de909723ECda2d119E31583D40a52a332f85c" := by
  constructor
  · have h := C9_amended.1 envConfirm ⟨[], [], []⟩ stVanausd 2 (by decide) (by decide) (by decide)
    rw [show pyIntTimesFloat 2 STAKE_PERCENTAGE = 1 from by decide] at h
    simpa using h
  · exact C9_amended.2.1 "0x054de909723ECda2d119E31583D40a52a332f85c" (by decide)

/-- C10: swap-function dispatch.  The (ATH, AUSD) pair selects the name
swapATHtoAUSD and the (VANA, VANAUSD) pair selects swapVANAtoVANAUSD; for
every other from/to pair the dispatch falls back to the name mint; and for
any swap-address configuration in which such another pair has a router,
the swap operation (after its approve) broadcasts a transaction to the
router calling mint with the requested amount as its single argument. -/
theorem C10_swap_function_dispatch :
    swapDispatch "ATH" "AUSD" = "swapATHtoAUSD" ∧
    swapDispatch "VANA" "VANAUSD" = "swapVANAtoVANAUSD" ∧
    (∀ ft tt, ¬(ft = "ATH" ∧ tt = "AUSD") → ¬(ft = "VANA" ∧ tt = "VANAUSD") →
      swapDispatch ft tt = "mint") ∧
    (∀ swapAddresses env ft tt amount st router tokenAddr,
      List.lookup (ft ++ "_TO_" ++ tt) swapAddresses = some router →
      TOKEN_ADDRESSES.lookup ft = some tokenAddr →
      ¬(ft = "ATH" ∧ tt = "AUSD") → ¬(ft = "VANA" ∧ tt = "VANAUSD") →
      AllConfirm env →
      ∃ pre r st', swap_token_with swapAddresses env ft tt amount st = .ok (some r) st' ∧
        st'.sent = st.sent ++ pre ++ [⟨router, "mint", [.num amount]⟩]) := by
  refine ⟨by decide, by decide, ?_, ?_⟩
  · intro ft tt h1 h2
    unfold swapDispatch
    rw [if_neg h1, if_neg h2]
  · intro swapAddresses env ft tt amount st router tokenAddr hk hT h1 h2 hc
    have hd : swapDispatch ft tt = "mint" := by
      unfold swapDispatch
      rw [if_neg h1, if_neg h2]
    unfold swap_token_with
    rw [hk]
    dsimp only
    obtain ⟨v, st1, ha, hac, har, pre, hsent⟩ :=
      approve_ok_of_confirms env ft router amount st (by rw [hT]; rfl) hc
    rw [ha]
    dsimp only
    obtain ⟨r, hr⟩ := send_ok_of_confirms env
      ⟨router, swapDispatch ft tt, [.num amount]⟩ st1 (hc _)
    rw [hr]
    refine ⟨pre, r, _, rfl, ?_⟩
    show st1.sent ++ [⟨router, swapDispatch ft tt, [.num amount]⟩] = _
    rw [hd, hsent, List.append_assoc]

/-- C10 witness: with an extra configured pair USDe to VUSD, the swap
broadcasts an approve on the USDe token followed by a mint call on the
router encoding the amount. -/
theorem C10_witness :
    (swap_token_with [("USDe_TO_VUSD", "0xrouterZ")] envConfirm
        "USDe" "VUSD" 5 st0).finalState.sent =
      [⟨"0xf4be938070f59764c85face374f92a4670ff3877", "approve",
        [.addr "0xrouterZ", .num 5]⟩,
       ⟨"0xrouterZ", "mint", [.num 5]⟩] := by
  have h := C10_swap_function_dispatch.2.2.2 [("USDe_TO_VUSD", "0xrouterZ")] envConfirm
    "USDe" "VUSD" 5 st0 "0xrouterZ" "0xf4be938070f59764c85face374f92a4670ff3877"
    (by decide) (by decide) (by decide) (by decide) (fun i => ⟨1, 0, 10, rfl⟩)
  decide
